import Mathlib

/-!
# SIOVElectronicsCalibProvider

A shallow embedding of `larevt/CalibrationDBI/Providers/SIOVElectronicsCalibProvider.cxx`
and the properties of its `Reconfigure`, `Update` and query operations.

Conventions of the embedding.

* A C++ member function that mutates the provider and may throw is a function returning
  the pair of its outcome (`Except`) and the provider state it leaves behind.  The state
  half is what the object holds when the exception leaves the function: nothing in the
  source rolls a mutation back.
* `float` and `double` are abstract types `F32` and `F64`; the conversions between text,
  `double` and `float` are operations of the environment `Env`.
* `size_t` arithmetic is arithmetic modulo `2 ^ 64`.
-/

set_option autoImplicit false

namespace lariov

/-! ## Values declared outside the provider's source file -/

/-- Channel identifier, an unsigned 32 bit value. -/
abbrev DBChannelID_t := Nat

/-- Time stamp handed to `Update`. -/
abbrev DBTimeStamp_t := Nat

/-- Modelled from the spec: `IOVTimeStamp`, whose class is declared outside the provider's
source file: an ordered pair (primary tick, sub-tick) of non-negative integers. -/
structure IOVTimeStamp where
  stamp : Nat
  substamp : Nat
  deriving DecidableEq, Repr

namespace IOVTimeStamp

/-- Modelled from the spec: the total order of `IOVTimeStamp`, which compares the primary
tick first and breaks ties on the sub-tick. -/
def lt (a b : IOVTimeStamp) : Prop :=
  a.stamp < b.stamp ∨ (a.stamp = b.stamp ∧ a.substamp < b.substamp)

instance : LT IOVTimeStamp := ⟨lt⟩

instance (a b : IOVTimeStamp) : Decidable (a < b) :=
  inferInstanceAs (Decidable (a.stamp < b.stamp ∨ (a.stamp = b.stamp ∧ a.substamp < b.substamp)))

/-- Modelled from the spec: `IOVTimeStamp::SetStamp`, which overwrites both ticks. -/
def SetStamp (_t : IOVTimeStamp) (stamp substamp : Nat) : IOVTimeStamp :=
  ⟨stamp, substamp⟩

end IOVTimeStamp

/-- The three acquisition modes (`DataSource::Database`, `File`, `Default`). -/
inductive DataSource
  | Database
  | File
  | Default
  deriving DecidableEq, Repr

/-- Everything the provider can throw. -/
inductive Error
  /-- `std::invalid_argument` of `std::stoi` and `std::stof`: no conversion possible. -/
  | invalid_argument
  /-- `std::out_of_range` of `std::stoi`, `std::stof` and `std::string::substr`. -/
  | out_of_range
  /-- `cet::exception` raised when the calibration file cannot be opened. -/
  | fileNotFound
  /-- The exception of `fhicl::ParameterSet::get` for a key without a value. -/
  | cantFind (key : String)
  /-- An exception of the database folder (a named field that is absent). -/
  | webError
  /-- An exception of the base class `DatabaseRetrievalAlg::Reconfigure`. -/
  | algError
  /-- The exception of `Snapshot::GetRow` for an absent channel. -/
  | channelNotFound
  deriving DecidableEq, Repr

deriving instance DecidableEq for Except

/-- Modelled from the spec: `CalibrationExtraInfo`, declared outside the provider's source
file; the provenance tag is its name. -/
structure CalibrationExtraInfo where
  name : String
  deriving DecidableEq, Repr

/-- Modelled from the spec: `ElectronicsCalib` (the spec's CalibrationRecord), declared
outside the provider's source file: one channel's four parameters and its provenance. -/
structure ElectronicsCalib (F32 : Type) where
  channel : DBChannelID_t
  gain : F32
  gainErr : F32
  shapingTime : F32
  shapingTimeErr : F32
  extraInfo : CalibrationExtraInfo
  deriving DecidableEq, Repr

namespace ElectronicsCalib

variable {F32 : Type}

/-- Modelled from the spec: the constructor `ElectronicsCalib(ch)`, declared outside the
provider's source file: only the channel is given. -/
def new [Inhabited F32] (ch : DBChannelID_t) : ElectronicsCalib F32 :=
  ⟨ch, default, default, default, default, ⟨""⟩⟩

/-- Modelled from the spec: the setter `SetChannel` of the record, declared outside the
provider's source file: it overwrites the channel. -/
def SetChannel (r : ElectronicsCalib F32) (ch : DBChannelID_t) : ElectronicsCalib F32 :=
  { r with channel := ch }

/-- Modelled from the spec: the setter `SetGain` of the record, declared outside the
provider's source file: it overwrites the gain. -/
def SetGain (r : ElectronicsCalib F32) (v : F32) : ElectronicsCalib F32 :=
  { r with gain := v }

/-- Modelled from the spec: the setter `SetGainErr` of the record, declared outside the
provider's source file: it overwrites the gain error. -/
def SetGainErr (r : ElectronicsCalib F32) (v : F32) : ElectronicsCalib F32 :=
  { r with gainErr := v }

/-- Modelled from the spec: the setter `SetShapingTime` of the record, declared outside the
provider's source file: it overwrites the shaping time. -/
def SetShapingTime (r : ElectronicsCalib F32) (v : F32) : ElectronicsCalib F32 :=
  { r with shapingTime := v }

/-- Modelled from the spec: the setter `SetShapingTimeErr` of the record, declared outside the
provider's source file: it overwrites the shaping time error. -/
def SetShapingTimeErr (r : ElectronicsCalib F32) (v : F32) : ElectronicsCalib F32 :=
  { r with shapingTimeErr := v }

/-- Modelled from the spec: the setter `SetExtraInfo` of the record, declared outside the
provider's source file: it overwrites the provenance. -/
def SetExtraInfo (r : ElectronicsCalib F32) (i : CalibrationExtraInfo) : ElectronicsCalib F32 :=
  { r with extraInfo := i }

end ElectronicsCalib

/-- Modelled from the spec: `Snapshot<ElectronicsCalib>`, declared outside the provider's
source file: a validity interval and the rows, at most one per channel. -/
structure Snapshot (F32 : Type) where
  fStart : IOVTimeStamp
  fEnd : IOVTimeStamp
  fData : List (ElectronicsCalib F32)
  deriving DecidableEq, Repr

/-- Modelled from the spec: the row replacement of `Snapshot::AddOrReplaceRow` on the row
list: a row of the same channel is replaced where it stands, otherwise the row is added. -/
def addOrReplace {F32 : Type} (r : ElectronicsCalib F32) :
    List (ElectronicsCalib F32) → List (ElectronicsCalib F32)
  | [] => [r]
  | x :: xs => if x.channel = r.channel then r :: xs else x :: addOrReplace r xs

namespace Snapshot

variable {F32 : Type}

/-- Modelled from the spec: `Snapshot::Clear`, which drops every row. -/
def Clear (s : Snapshot F32) : Snapshot F32 :=
  { s with fData := [] }

/-- Modelled from the spec: `Snapshot::SetIoV`, which sets the validity interval. -/
def SetIoV (s : Snapshot F32) (b e : IOVTimeStamp) : Snapshot F32 :=
  { s with fStart := b, fEnd := e }

/-- Modelled from the spec: `Snapshot::AddOrReplaceRow`, which inserts a row, silently
replacing any prior row for the same channel. -/
def AddOrReplaceRow (s : Snapshot F32) (r : ElectronicsCalib F32) : Snapshot F32 :=
  { s with fData := addOrReplace r s.fData }

/-- Modelled from the spec: `Snapshot::GetRow`, the row of a channel, failing when the
channel has none. -/
def GetRow (s : Snapshot F32) (ch : DBChannelID_t) : Except Error (ElectronicsCalib F32) :=
  match s.fData.find? (fun r => decide (r.channel = ch)) with
  | some r => .ok r
  | none => .error .channelNotFound

end Snapshot

/-! ## Text conversions of the C++ standard library -/

/-- The characters `isspace` accepts in the C locale. -/
def isspace (c : Char) : Bool :=
  c == ' ' || c == '\t' || c == '\n' || c == '\x0b' || c == '\x0c' || c == '\r'

/-- Value of a decimal digit character. -/
def digitVal (c : Char) : Nat := c.toNat - 48

/-- Value of a hexadecimal digit character, if it is one. -/
def hexVal (c : Char) : Option Nat :=
  if c.isDigit then some (c.toNat - 48)
  else if 'a'.toNat ≤ c.toNat ∧ c.toNat ≤ 'f'.toNat then some (c.toNat - 87)
  else if 'A'.toNat ≤ c.toNat ∧ c.toNat ≤ 'F'.toNat then some (c.toNat - 55)
  else none

/-- Value of a run of decimal digits, most significant first, continuing from `acc`. -/
def digitsVal (acc : Nat) : List Char → Nat
  | [] => acc
  | c :: cs => digitsVal (10 * acc + digitVal c) cs

/-- The function `std::stoi` (base 10): leading white space is skipped, an optional sign
is read, then the longest run of digits; no digit gives `invalid_argument`, a value that
does not fit `int` gives `out_of_range`.  Text after the digits is ignored. -/
def stoi (s : List Char) : Except Error Int :=
  let s1 := s.dropWhile isspace
  let neg := s1.head? == some '-'
  let s2 := if s1.head? == some '-' || s1.head? == some '+' then s1.tail else s1
  let ds := s2.takeWhile Char.isDigit
  if ds = [] then .error .invalid_argument
  else
    let v : Int := if neg then -(digitsVal 0 ds : Int) else (digitsVal 0 ds : Int)
    if v < -2147483648 ∨ 2147483647 < v then .error .out_of_range else .ok v

/-- The cast `(DBChannelID_t)` of an `int` to the unsigned 32 bit channel type. -/
def toChannel (v : Int) : DBChannelID_t := (v % 4294967296).toNat

/-- What `strtof` reads as the number: a decimal or hexadecimal magnitude with a power of
ten or two, an infinity or a NaN, each with its sign. -/
inductive FloatLit
  /-- The value `(-1)^neg * mant * 10^exp`. -/
  | dec (neg : Bool) (mant : Nat) (exp : Int)
  /-- The value `(-1)^neg * mant * 2^exp`. -/
  | hex (neg : Bool) (mant : Nat) (exp : Int)
  | inf (neg : Bool)
  | nan (neg : Bool)
  deriving DecidableEq, Repr

/-- Where the scanner of `strtof` stands in the grammar of a floating point number. -/
inductive Phase
  /-- Skipping leading white space. -/
  | ws
  /-- At the start of the number, the optional sign read. -/
  | start
  /-- A single leading `0` read (it can still open a hexadecimal number). -/
  | zero
  /-- In the integer digits, their value accumulated. -/
  | int (m : Nat)
  /-- A leading `.` read, no digit yet. -/
  | point0
  /-- In the fraction: the value of all digits and the number of fraction digits. -/
  | frac (m k : Nat)
  /-- The exponent letter read. -/
  | expMark (m k : Nat)
  /-- The sign of the exponent read. -/
  | expSign (m k : Nat) (eneg : Bool)
  /-- In the digits of the exponent. -/
  | expDig (m k : Nat) (eneg : Bool) (e : Nat)
  /-- The prefix `0x` read. -/
  | hexX
  | hexInt (m : Nat)
  | hexPoint0
  | hexFrac (m k : Nat)
  | hexExpMark (m k : Nat)
  | hexExpSign (m k : Nat) (eneg : Bool)
  | hexExpDig (m k : Nat) (eneg : Bool) (e : Nat)
  /-- The letter `i` of `inf` read, then `in`. -/
  | kwI1
  | kwI2
  /-- The letter `n` of `nan` read, then `na`. -/
  | kwN1
  | kwN2
  /-- Nothing more can extend the number. -/
  | done
  deriving DecidableEq, Repr

/-- State of the scanner: the sign, the phase, and the value of the longest prefix read so
far that is a complete number. -/
structure Scan where
  neg : Bool
  ph : Phase
  best : Option FloatLit
  deriving DecidableEq, Repr

/-- Signed exponent minus a scale. -/
def expOf (eneg : Bool) (e : Nat) (scale : Nat) : Int :=
  (if eneg then -(e : Int) else (e : Int)) - (scale : Int)

/-- The scanner at the first character of the number proper (after the sign). -/
def stepStart (neg : Bool) (c : Char) : Option Scan :=
  if c.isDigit then
    if c == '0' then some ⟨neg, .zero, some (.dec neg 0 0)⟩
    else some ⟨neg, .int (digitVal c), some (.dec neg (digitVal c) 0)⟩
  else if c == '.' then some ⟨neg, .point0, none⟩
  else if c.toLower == 'i' then some ⟨neg, .kwI1, none⟩
  else if c.toLower == 'n' then some ⟨neg, .kwN1, none⟩
  else none

/-- The scanner in the integer digits with value `m`. -/
def stepInt (q : Scan) (m : Nat) (c : Char) : Option Scan :=
  if c.isDigit then
    some ⟨q.neg, .int (10 * m + digitVal c), some (.dec q.neg (10 * m + digitVal c) 0)⟩
  else if c == '.' then some ⟨q.neg, .frac m 0, q.best⟩
  else if c.toLower == 'e' then some ⟨q.neg, .expMark m 0, q.best⟩
  else none

/-- One character of `strtof`: the next state, or `none` when the character cannot extend
the number. -/
def step (q : Scan) (c : Char) : Option Scan :=
  match q.ph with
  | .ws =>
    if isspace c then some q
    else if c == '-' then some ⟨true, .start, none⟩
    else if c == '+' then some ⟨false, .start, none⟩
    else stepStart false c
  | .start => stepStart q.neg c
  | .zero => if c.toLower == 'x' then some ⟨q.neg, .hexX, q.best⟩ else stepInt q 0 c
  | .int m => stepInt q m c
  | .point0 =>
    if c.isDigit then some ⟨q.neg, .frac (digitVal c) 1, some (.dec q.neg (digitVal c) (-1))⟩
    else none
  | .frac m k =>
    if c.isDigit then
      some ⟨q.neg, .frac (10 * m + digitVal c) (k + 1),
        some (.dec q.neg (10 * m + digitVal c) (-((k + 1 : Nat) : Int)))⟩
    else if c.toLower == 'e' then some ⟨q.neg, .expMark m k, q.best⟩
    else none
  | .expMark m k =>
    if c.isDigit then
      some ⟨q.neg, .expDig m k false (digitVal c), some (.dec q.neg m (expOf false (digitVal c) k))⟩
    else if c == '-' then some ⟨q.neg, .expSign m k true, q.best⟩
    else if c == '+' then some ⟨q.neg, .expSign m k false, q.best⟩
    else none
  | .expSign m k eneg =>
    if c.isDigit then
      some ⟨q.neg, .expDig m k eneg (digitVal c), some (.dec q.neg m (expOf eneg (digitVal c) k))⟩
    else none
  | .expDig m k eneg e =>
    if c.isDigit then
      some ⟨q.neg, .expDig m k eneg (10 * e + digitVal c),
        some (.dec q.neg m (expOf eneg (10 * e + digitVal c) k))⟩
    else none
  | .hexX =>
    match hexVal c with
    | some h => some ⟨q.neg, .hexInt h, some (.hex q.neg h 0)⟩
    | none => if c == '.' then some ⟨q.neg, .hexPoint0, q.best⟩ else none
  | .hexInt m =>
    match hexVal c with
    | some h => some ⟨q.neg, .hexInt (16 * m + h), some (.hex q.neg (16 * m + h) 0)⟩
    | none =>
      if c == '.' then some ⟨q.neg, .hexFrac m 0, q.best⟩
      else if c.toLower == 'p' then some ⟨q.neg, .hexExpMark m 0, q.best⟩
      else none
  | .hexPoint0 =>
    match hexVal c with
    | some h => some ⟨q.neg, .hexFrac h 1, some (.hex q.neg h (-4))⟩
    | none => none
  | .hexFrac m k =>
    match hexVal c with
    | some h =>
      some ⟨q.neg, .hexFrac (16 * m + h) (k + 1),
        some (.hex q.neg (16 * m + h) (-((4 * (k + 1) : Nat) : Int)))⟩
    | none => if c.toLower == 'p' then some ⟨q.neg, .hexExpMark m k, q.best⟩ else none
  | .hexExpMark m k =>
    if c.isDigit then
      some ⟨q.neg, .hexExpDig m k false (digitVal c),
        some (.hex q.neg m (expOf false (digitVal c) (4 * k)))⟩
    else if c == '-' then some ⟨q.neg, .hexExpSign m k true, q.best⟩
    else if c == '+' then some ⟨q.neg, .hexExpSign m k false, q.best⟩
    else none
  | .hexExpSign m k eneg =>
    if c.isDigit then
      some ⟨q.neg, .hexExpDig m k eneg (digitVal c),
        some (.hex q.neg m (expOf eneg (digitVal c) (4 * k)))⟩
    else none
  | .hexExpDig m k eneg e =>
    if c.isDigit then
      some ⟨q.neg, .hexExpDig m k eneg (10 * e + digitVal c),
        some (.hex q.neg m (expOf eneg (10 * e + digitVal c) (4 * k)))⟩
    else none
  | .kwI1 => if c.toLower == 'n' then some ⟨q.neg, .kwI2, none⟩ else none
  | .kwI2 => if c.toLower == 'f' then some ⟨q.neg, .done, some (.inf q.neg)⟩ else none
  | .kwN1 => if c.toLower == 'a' then some ⟨q.neg, .kwN2, none⟩ else none
  | .kwN2 => if c.toLower == 'n' then some ⟨q.neg, .done, some (.nan q.neg)⟩ else none
  | .done => none

/-- The scanner run over a text until a character cannot extend the number. -/
def run (q : Scan) : List Char → Scan
  | [] => q
  | c :: cs =>
    match step q c with
    | none => q
    | some q1 => run q1 cs

/-- The number `strtof` reads at the start of a text: the longest prefix that is a number,
if there is one. -/
def scanFloat (s : List Char) : Option FloatLit :=
  (run ⟨false, .ws, none⟩ s).best

/-- The function `std::stof`: `invalid_argument` when the text does not start with a
number, `out_of_range` when `toFloat` has no `float` for the number read. -/
def stof {F32 : Type} (toFloat : FloatLit → Option F32) (s : List Char) : Except Error F32 :=
  match scanFloat s with
  | none => .error .invalid_argument
  | some l =>
    match toFloat l with
    | none => .error .out_of_range
    | some x => .ok x

/-- The constant `std::string::npos`. -/
def npos : Nat := 18446744073709551615

/-- A `size_t` sum. -/
def addSize (a b : Nat) : Nat := (a + b) % 18446744073709551616

/-- Position of the first `c` in a row of characters, counted from `i`. -/
def findAux (c : Char) : List Char → Nat → Nat
  | [], _ => npos
  | x :: xs, i => if x = c then i else findAux c xs (i + 1)

/-- The call `line.find(c, pos)`: the first position at or after `pos` holding `c`, or
`npos`. -/
def find (line : List Char) (c : Char) (pos : Nat) : Nat :=
  findAux c (line.drop pos) pos

/-- The call `line.substr(pos, n)`: the characters from `pos`, at most `n` of them;
`out_of_range` when `pos` is beyond the end. -/
def substr (line : List Char) (pos n : Nat) : Except Error (List Char) :=
  if line.length < pos then .error .out_of_range
  else .ok ((line.drop pos).take (min n (line.length - pos)))

/-! ## The provider and its collaborators -/

/-- Rows inserted one after the other, first to last, with `addOrReplace`. -/
def insertAll {F32 : Type} (rows : List (ElectronicsCalib F32))
    (d : List (ElectronicsCalib F32)) : List (ElectronicsCalib F32) :=
  rows.foldl (fun acc r => addOrReplace r acc) d

/-- The rows of a row list that belong to a channel. -/
def rowsOf {F32 : Type} (ch : DBChannelID_t) (d : List (ElectronicsCalib F32)) :
    List (ElectronicsCalib F32) :=
  d.filter (fun r => decide (r.channel = ch))


/-- Every channel has at most one row. -/
def AtMostOne {F32 : Type} (d : List (ElectronicsCalib F32)) : Prop :=
  ∀ ch, (rowsOf ch d).length ≤ 1

/-- The configuration `fhicl::ParameterSet` handed to the provider: the keys it reads,
each absent (`none`) or present.  `P` is the nested block `DatabaseRetrievalAlg`. -/
structure ParameterSet (F32 P : Type) where
  DatabaseRetrievalAlg : Option P
  UseDB : Option Bool
  UseFile : Option Bool
  FileName : Option String
  DefaultGain : Option F32
  DefaultGainErr : Option F32
  DefaultShapingTime : Option F32
  DefaultShapingTimeErr : Option F32

/-- The collaborators the provider calls and the constants it uses, none of them defined
in the provider's source file.  `Fld` is the state of the database folder `fFolder`. -/
structure Env (F32 F64 P Fld : Type) where
  /-- The base class call `DatabaseRetrievalAlg::Reconfigure`, which sets up the folder. -/
  algReconfigure : P → Fld → Except Error Fld
  /-- The call `UpdateFolder(ts)`: whether the folder changed, and the folder afterwards. -/
  UpdateFolder : Fld → DBTimeStamp_t → Bool × Fld
  /-- The folder's validity interval, `Begin()` and `End()`. -/
  Begin : Fld → IOVTimeStamp
  End : Fld → IOVTimeStamp
  /-- The call `fFolder->GetChannelList`. -/
  GetChannelList : Fld → List DBChannelID_t
  /-- The call `fFolder->GetNamedChannelData`; `none` when the folder has no such field
  for the channel, which the folder reports by throwing. -/
  GetNamedChannelData : Fld → DBChannelID_t → String → Option F64
  /-- The `float` that `strtof` returns for a number read; `none` for a range error. -/
  toFloat : FloatLit → Option F32
  /-- The cast `(float)` of a `double`. -/
  narrow : F64 → F32
  /-- The channels `PlaneWireToChannel` gives along the geometry's wire iteration. -/
  wireChannels : List DBChannelID_t
  /-- The lines `std::getline` yields from the file of a name; `none` when the file cannot
  be opened. -/
  fileLines : String → Option (List (List Char))
  /-- The constant `IOVTimeStamp::MaxTimeStamp()`. -/
  MaxTimeStamp : IOVTimeStamp

/-- The data members of `SIOVElectronicsCalibProvider`. -/
structure SIOVElectronicsCalibProvider (F32 Fld : Type) where
  fFolder : Fld
  fData : Snapshot F32
  fDataSource : DataSource

section Provider

variable {F32 F64 P Fld : Type}

/-- The five values read from one line of the calibration file. -/
structure LineValues (F32 : Type) where
  ch : DBChannelID_t
  gain : F32
  gain_err : F32
  shaping_time : F32
  shaping_time_err : F32
  deriving DecidableEq, Repr

/-- Lines 75 to 86 of the source: the conversions of one line of the file, in the order
the source performs them. -/
def parseLine (toFloat : FloatLit → Option F32) (line : List Char) :
    Except Error (LineValues F32) := do
  let current_comma := find line ',' 0
  let ch := toChannel (← stoi (← substr line 0 current_comma))
  let gain ← stof toFloat
    (← substr line (addSize current_comma 1) (find line ',' (addSize current_comma 1)))
  let current_comma := find line ',' (addSize current_comma 1)
  let gain_err ← stof toFloat
    (← substr line (addSize current_comma 1) (find line ',' (addSize current_comma 1)))
  let current_comma := find line ',' (addSize current_comma 1)
  let shaping_time ← stof toFloat
    (← substr line (addSize current_comma 1) (find line ',' (addSize current_comma 1)))
  let current_comma := find line ',' (addSize current_comma 1)
  let shaping_time_err ← stof toFloat
    (← substr line (addSize current_comma 1) (find line ',' (addSize current_comma 1)))
  pure ⟨ch, gain, gain_err, shaping_time, shaping_time_err⟩

/-- Lines 88 to 95 of the source: the values of a line written into the record `dp`. -/
def setLine (dp : ElectronicsCalib F32) (v : LineValues F32) : ElectronicsCalib F32 :=
  (((((dp.SetChannel v.ch).SetGain v.gain).SetGainErr v.gain_err).SetShapingTime
    v.shaping_time).SetShapingTimeErr v.shaping_time_err).SetExtraInfo ⟨"ElectronicsCalib"⟩

/-- Lines 74 to 98 of the source: the loop over the lines of the file.  The record `dp`
lives across the iterations; a conversion that throws ends the loop and leaves the rows
inserted so far. -/
def fileLoop (toFloat : FloatLit → Option F32) :
    List (List Char) → ElectronicsCalib F32 → Snapshot F32 → Except Error Unit × Snapshot F32
  | [], _, d => (.ok (), d)
  | line :: rest, dp, d =>
    match parseLine toFloat line with
    | .error e => (.error e, d)
    | .ok v => fileLoop toFloat rest (setLine dp v) (d.AddOrReplaceRow (setLine dp v))

/-- Lines 57 to 61 of the source: the loop over the wires of the geometry. -/
def defaultLoop : List DBChannelID_t → ElectronicsCalib F32 → Snapshot F32 → Snapshot F32
  | [], _, d => d
  | ch :: rest, defaultCalib, d =>
    defaultLoop rest (defaultCalib.SetChannel ch) (d.AddOrReplaceRow (defaultCalib.SetChannel ch))

/-- Lines 37 to 39 of the source: the choice of the data source. -/
def selectDataSource (UseDB UseFile : Bool) : DataSource :=
  if UseDB then .Database
  else if UseFile then .File
  else .Default

/-- Lines 42 to 53 of the source: the four defaults read from the configuration and the
record built from them; a missing key throws. -/
def defaultCalib [Inhabited F32] (p : ParameterSet F32 P) : Except Error (ElectronicsCalib F32) :=
  match p.DefaultGain with
  | none => .error (.cantFind "DefaultGain")
  | some default_gain =>
  match p.DefaultGainErr with
  | none => .error (.cantFind "DefaultGainErr")
  | some default_gain_err =>
  match p.DefaultShapingTime with
  | none => .error (.cantFind "DefaultShapingTime")
  | some default_st =>
  match p.DefaultShapingTimeErr with
  | none => .error (.cantFind "DefaultShapingTimeErr")
  | some default_st_err =>
    .ok ((((((ElectronicsCalib.new 0).SetGain default_gain).SetGainErr
      default_gain_err).SetShapingTime default_st).SetShapingTimeErr
      default_st_err).SetExtraInfo ⟨"ElectronicsCalib"⟩)

/-- The member function `Reconfigure`: its outcome and the provider it leaves. -/
def Reconfigure [Inhabited F32] (env : Env F32 F64 P Fld) (p : ParameterSet F32 P)
    (s : SIOVElectronicsCalibProvider F32 Fld) :
    Except Error Unit × SIOVElectronicsCalibProvider F32 Fld :=
  match p.DatabaseRetrievalAlg with
  | none => (.error (.cantFind "DatabaseRetrievalAlg"), s)
  | some q =>
  match env.algReconfigure q s.fFolder with
  | .error e => (.error e, s)
  | .ok fld =>
    let tmp := env.MaxTimeStamp
    let tmp := tmp.SetStamp (tmp.stamp - 1) tmp.substamp
    let d := s.fData.Clear.SetIoV tmp env.MaxTimeStamp
    let UseDB := p.UseDB.getD false
    let UseFile := p.UseFile.getD false
    let fileName := p.FileName.getD ""
    let s1 : SIOVElectronicsCalibProvider F32 Fld :=
      { fFolder := fld, fData := d, fDataSource := selectDataSource UseDB UseFile }
    match s1.fDataSource with
    | .Default =>
      match defaultCalib p with
      | .error e => (.error e, s1)
      | .ok dc => (.ok (), { s1 with fData := defaultLoop env.wireChannels dc d })
    | .File =>
      match env.fileLines fileName with
      | none => (.error .fileNotFound, s1)
      | some lines =>
        ((fileLoop env.toFloat lines (ElectronicsCalib.new 0) d).1,
          { s1 with fData := (fileLoop env.toFloat lines (ElectronicsCalib.new 0) d).2 })
    | .Database => (.ok (), s1)

/-- Lines 119 to 131 of the source: the four named fields of a channel fetched from the
folder and the record built from them; a field the folder lacks throws. -/
def channelRow [Inhabited F32] (env : Env F32 F64 P Fld) (fld : Fld) (ch : DBChannelID_t) :
    Except Error (ElectronicsCalib F32) :=
  match env.GetNamedChannelData fld ch "gain" with
  | none => .error .webError
  | some gain =>
  match env.GetNamedChannelData fld ch "gain_err" with
  | none => .error .webError
  | some gain_err =>
  match env.GetNamedChannelData fld ch "shaping_time" with
  | none => .error .webError
  | some shaping_time =>
  match env.GetNamedChannelData fld ch "shaping_time_err" with
  | none => .error .webError
  | some shaping_time_err =>
    .ok ((((((ElectronicsCalib.new ch).SetGain (env.narrow gain)).SetGainErr
      (env.narrow gain_err)).SetShapingTime (env.narrow shaping_time)).SetShapingTimeErr
      (env.narrow shaping_time_err)).SetExtraInfo ⟨"ElectronicsCalib"⟩)

/-- Lines 117 to 134 of the source: the loop over the folder's channel list. -/
def updateLoop [Inhabited F32] (env : Env F32 F64 P Fld) (fld : Fld) :
    List DBChannelID_t → Snapshot F32 → Except Error Unit × Snapshot F32
  | [], d => (.ok (), d)
  | ch :: rest, d =>
    match channelRow env fld ch with
    | .error e => (.error e, d)
    | .ok pg => updateLoop env fld rest (d.AddOrReplaceRow pg)

/-- The member function `Update`: its outcome and the provider it leaves. -/
def Update [Inhabited F32] (env : Env F32 F64 P Fld) (ts : DBTimeStamp_t)
    (s : SIOVElectronicsCalibProvider F32 Fld) :
    Except Error Bool × SIOVElectronicsCalibProvider F32 Fld :=
  if s.fDataSource ≠ .Database then (.ok false, s)
  else if !(env.UpdateFolder s.fFolder ts).1 then
    (.ok false, { s with fFolder := (env.UpdateFolder s.fFolder ts).2 })
  else
    let fld := (env.UpdateFolder s.fFolder ts).2
    let d := s.fData.Clear.SetIoV (env.Begin fld) (env.End fld)
    match updateLoop env fld (env.GetChannelList fld) d with
    | (.error e, d1) => (.error e, { s with fFolder := fld, fData := d1 })
    | (.ok _, d1) => (.ok true, { s with fFolder := fld, fData := d1 })

/-- The member function `ElectronicsCalibObject`. -/
def ElectronicsCalibObject (s : SIOVElectronicsCalibProvider F32 Fld) (ch : DBChannelID_t) :
    Except Error (ElectronicsCalib F32) :=
  s.fData.GetRow ch

/-- The member function `Gain`. -/
def Gain (s : SIOVElectronicsCalibProvider F32 Fld) (ch : DBChannelID_t) : Except Error F32 :=
  (ElectronicsCalibObject s ch).map (fun r => r.gain)

/-- The member function `GainErr`. -/
def GainErr (s : SIOVElectronicsCalibProvider F32 Fld) (ch : DBChannelID_t) :
    Except Error F32 :=
  (ElectronicsCalibObject s ch).map (fun r => r.gainErr)

/-- The member function `ShapingTime`. -/
def ShapingTime (s : SIOVElectronicsCalibProvider F32 Fld) (ch : DBChannelID_t) :
    Except Error F32 :=
  (ElectronicsCalibObject s ch).map (fun r => r.shapingTime)

/-- The member function `ShapingTimeErr`. -/
def ShapingTimeErr (s : SIOVElectronicsCalibProvider F32 Fld) (ch : DBChannelID_t) :
    Except Error F32 :=
  (ElectronicsCalibObject s ch).map (fun r => r.shapingTimeErr)

/-- The member function `ExtraInfo`. -/
def ExtraInfo (s : SIOVElectronicsCalibProvider F32 Fld) (ch : DBChannelID_t) :
    Except Error CalibrationExtraInfo :=
  (ElectronicsCalibObject s ch).map (fun r => r.extraInfo)

/-- The values `fData` takes while the loop of lines 117 to 134 runs, one per inserted
row; a channel that lacks a field ends the loop. -/
def updateLoopStates [Inhabited F32] (env : Env F32 F64 P Fld) (fld : Fld) :
    List DBChannelID_t → Snapshot F32 → List (Snapshot F32)
  | [], _ => []
  | ch :: rest, d =>
    match channelRow env fld ch with
    | .error _ => []
    | .ok pg => d.AddOrReplaceRow pg :: updateLoopStates env fld rest (d.AddOrReplaceRow pg)

/-- The values `fData` takes while `Update(ts)` runs, statement by statement: the value at
entry, then after `Clear` (line 112), after `SetIoV` (line 113) and after each
`AddOrReplaceRow` (line 133). -/
def UpdateStates [Inhabited F32] (env : Env F32 F64 P Fld) (ts : DBTimeStamp_t)
    (s : SIOVElectronicsCalibProvider F32 Fld) : List (Snapshot F32) :=
  if s.fDataSource ≠ .Database then [s.fData]
  else if !(env.UpdateFolder s.fFolder ts).1 then [s.fData]
  else
    s.fData :: s.fData.Clear ::
      s.fData.Clear.SetIoV (env.Begin (env.UpdateFolder s.fFolder ts).2)
        (env.End (env.UpdateFolder s.fFolder ts).2) ::
      updateLoopStates env (env.UpdateFolder s.fFolder ts).2
        (env.GetChannelList (env.UpdateFolder s.fFolder ts).2)
        (s.fData.Clear.SetIoV (env.Begin (env.UpdateFolder s.fFolder ts).2)
          (env.End (env.UpdateFolder s.fFolder ts).2))

/-- The providers that can exist: the constructor runs `Reconfigure` on the raw object and
the object exists when that returns normally; afterwards `Reconfigure` and `Update` may be
called any number of times, whether they return normally or throw. -/
inductive Reachable [Inhabited F32] (env : Env F32 F64 P Fld) :
    SIOVElectronicsCalibProvider F32 Fld → Prop
  | construct (p : ParameterSet F32 P) (raw : SIOVElectronicsCalibProvider F32 Fld) :
      (Reconfigure env p raw).1 = .ok () → Reachable env (Reconfigure env p raw).2
  | reconfigure (p : ParameterSet F32 P) (s : SIOVElectronicsCalibProvider F32 Fld) :
      Reachable env s → Reachable env (Reconfigure env p s).2
  | update (ts : DBTimeStamp_t) (s : SIOVElectronicsCalibProvider F32 Fld) :
      Reachable env s → Reachable env (Update env ts s).2

/-- A run of calls of `Update` for each of which the folder reports no change. -/
inductive QuietRun [Inhabited F32] (env : Env F32 F64 P Fld) :
    SIOVElectronicsCalibProvider F32 Fld → SIOVElectronicsCalibProvider F32 Fld → Prop
  | refl (s : SIOVElectronicsCalibProvider F32 Fld) : QuietRun env s s
  | step (s t : SIOVElectronicsCalibProvider F32 Fld) (ts : DBTimeStamp_t) :
      QuietRun env s t → (env.UpdateFolder t.fFolder ts).1 = false →
      QuietRun env s (Update env ts t).2

end Provider

/-! ## Rows named in the statements -/

/-- The row the file loader builds from the values of a line. -/
def lineRow {F32 : Type} (v : LineValues F32) : ElectronicsCalib F32 :=
  ⟨v.ch, v.gain, v.gain_err, v.shaping_time, v.shaping_time_err, ⟨"ElectronicsCalib"⟩⟩

/-- The interval `Reconfigure` gives the snapshot: from the largest time stamp with its
primary tick lowered by one, to the largest time stamp. -/
def foreverStart {F32 F64 P Fld : Type} (env : Env F32 F64 P Fld) : IOVTimeStamp :=
  ⟨env.MaxTimeStamp.stamp - 1, env.MaxTimeStamp.substamp⟩

/-- The row of a channel when the folder has the four fields, and an empty record for the
channel otherwise. -/
def rowOrNew {F32 F64 P Fld : Type} [Inhabited F32] (env : Env F32 F64 P Fld) (fld : Fld)
    (ch : DBChannelID_t) : ElectronicsCalib F32 :=
  match channelRow env fld ch with
  | .ok r => r
  | .error _ => ElectronicsCalib.new ch

/-- The five conversions applied to five texts, each field read from its own text: the
channel with `std::stoi`, the four values with `std::stof`. -/
def parseFields {F32 : Type} (toFloat : FloatLit → Option F32) (c g ge s se : List Char) :
    Except Error (LineValues F32) := do
  let ch ← stoi c
  let gain ← stof toFloat g
  let gain_err ← stof toFloat ge
  let shaping_time ← stof toFloat s
  let shaping_time_err ← stof toFloat se
  pure ⟨toChannel ch, gain, gain_err, shaping_time, shaping_time_err⟩

/-- A plain decimal number as the file format writes it: an optional minus sign, digits,
and optionally a point followed by digits. -/
structure PlainDecimal where
  neg : Bool
  ip : List Char
  fp : Option (List Char)
  deriving DecidableEq, Repr

namespace PlainDecimal

/-- The digits after the point, none when there is no point. -/
def frac (d : PlainDecimal) : List Char := d.fp.getD []

/-- Both parts are digits and there is at least one digit. -/
def wf (d : PlainDecimal) : Bool :=
  d.ip.all Char.isDigit && d.frac.all Char.isDigit && !(d.ip.isEmpty && d.frac.isEmpty)

/-- The point and the digits after it, when there is a point. -/
def pointText : Option (List Char) → List Char
  | none => []
  | some f => '.' :: f

/-- The text of the number. -/
def text (d : PlainDecimal) : List Char :=
  (if d.neg then ['-'] else []) ++ (d.ip ++ pointText d.fp)

/-- The number the text denotes: its digits as an integer, scaled down by one power of ten
per digit after the point. -/
def value (d : PlainDecimal) : FloatLit :=
  .dec d.neg (digitsVal 0 (d.ip ++ d.frac)) (-(d.frac.length : Int))

end PlainDecimal

/-- The line of the file made of five fields, a comma between each two. -/
def fiveFields (c g ge s se : List Char) : List Char :=
  c ++ ',' :: (g ++ ',' :: (ge ++ ',' :: (s ++ ',' :: se)))

/-! ## A concrete environment for evaluation -/

/-- A stand-in for `float` that keeps the number read as it is. -/
abbrev Lit32 := FloatLit

instance : Inhabited FloatLit := ⟨.dec false 0 0⟩

/-- The conversion to the stand-in for `float`: the number read, kept as it is. -/
def keepLit : FloatLit → Option Lit32 := fun l => some l

/-- A folder for evaluation: whether it changed, its interval, and its rows of
(channel, gain, gain_err, shaping_time, shaping_time_err), an absent value being a field
the folder lacks. -/
structure TestFolder where
  changed : Bool
  b : IOVTimeStamp
  e : IOVTimeStamp
  rows : List (DBChannelID_t × Option FloatLit × Option FloatLit × Option FloatLit × Option FloatLit)
  deriving DecidableEq, Repr

/-- A named field of a row of the test folder. -/
def TestFolder.field (f : TestFolder) (ch : DBChannelID_t) (name : String) : Option FloatLit :=
  match f.rows.find? (fun r => decide (r.1 = ch)) with
  | none => none
  | some r =>
    if name = "gain" then r.2.1
    else if name = "gain_err" then r.2.2.1
    else if name = "shaping_time" then r.2.2.2.1
    else if name = "shaping_time_err" then r.2.2.2.2
    else none

/-- An environment for evaluation: numbers are kept as read, the nested configuration
block is the folder itself, the file system holds the one file `name` with the given
lines, and the largest time stamp is `(100, 9)`. -/
def testEnv (wires : List DBChannelID_t) (name : String) (lines : List String) :
    Env Lit32 FloatLit TestFolder TestFolder where
  algReconfigure := fun q _ => .ok q
  UpdateFolder := fun f _ => (f.changed, f)
  Begin := fun f => f.b
  End := fun f => f.e
  GetChannelList := fun f => f.rows.map (fun r => r.1)
  GetNamedChannelData := fun f ch n => f.field ch n
  toFloat := keepLit
  narrow := fun x => x
  wireChannels := wires
  fileLines := fun n => if n = name then some (lines.map String.toList) else none
  MaxTimeStamp := ⟨100, 9⟩

/-- A number kept as read, for evaluation: the decimal `m * 10^e`. -/
def lit (m : Nat) (e : Int) : FloatLit := .dec false m e

/-- A folder for evaluation that reports a change, is valid from `(1, 0)` to `(2, 0)` and
lists channel 1 with its four fields and then channel 2 without its `gain`. -/
def brokenFolder : TestFolder :=
  ⟨true, ⟨1, 0⟩, ⟨2, 0⟩,
    [(1, some (lit 1 0), some (lit 2 0), some (lit 3 0), some (lit 4 0)),
     (2, none, some (lit 2 0), some (lit 3 0), some (lit 4 0))]⟩

/-- A folder for evaluation that reports a change and lists channels 3 and 4. -/
def goodFolder : TestFolder :=
  ⟨true, ⟨1, 0⟩, ⟨2, 0⟩,
    [(3, some (lit 1 0), some (lit 2 0), some (lit 3 0), some (lit 4 0)),
     (4, some (lit 5 0), some (lit 6 0), some (lit 7 0), some (lit 8 0))]⟩

/-- A folder for evaluation that reports no change. -/
def quietFolder : TestFolder :=
  ⟨false, ⟨1, 0⟩, ⟨2, 0⟩, [(3, some (lit 1 0), some (lit 2 0), some (lit 3 0), some (lit 4 0))]⟩

/-- A configuration for evaluation that selects the database. -/
def dbConfig (fld : TestFolder) : ParameterSet Lit32 TestFolder :=
  ⟨some fld, some true, none, none, none, none, none, none⟩

/-- A configuration for evaluation with both flags set. -/
def bothFlagsConfig : ParameterSet Lit32 TestFolder :=
  ⟨some quietFolder, some true, some true, some "calib.txt", none, none, none, none⟩

/-- A configuration for evaluation that selects the file `name`. -/
def fileConfig (name : String) : ParameterSet Lit32 TestFolder :=
  ⟨some ⟨false, ⟨0, 0⟩, ⟨1, 0⟩, []⟩, none, some true, some name, none, none, none, none⟩

/-- A configuration for evaluation that selects the defaults 1.5, 0.1, 2.0 and 0.05. -/
def defaultConfig : ParameterSet Lit32 TestFolder :=
  ⟨some ⟨false, ⟨0, 0⟩, ⟨1, 0⟩, []⟩, none, none, none,
    some (lit 15 (-1)), some (lit 1 (-1)), some (lit 20 (-1)), some (lit 5 (-2))⟩

/-- A configuration for evaluation that selects the defaults but configures none. -/
def noDefaultsConfig : ParameterSet Lit32 TestFolder :=
  ⟨some quietFolder, none, none, none, none, none, none, none⟩

/-- A provider for evaluation holding one row, for channel 9, valid from `(10, 0)` to
`(20, 0)`. -/
def providerWith (fld : TestFolder) (src : DataSource) :
    SIOVElectronicsCalibProvider Lit32 TestFolder :=
  ⟨fld, ⟨⟨10, 0⟩, ⟨20, 0⟩, [⟨9, lit 9 0, lit 9 0, lit 9 0, lit 9 0, ⟨"ElectronicsCalib"⟩⟩]⟩, src⟩

/-- An environment for evaluation whose folder has no state: it always reports a change,
is valid from `(1, 0)` to `(2, 0)` and lists channel 3 with the four values 1, 2, 3, 4. -/
def unitEnv : Env Lit32 FloatLit Unit Unit where
  algReconfigure := fun _ _ => .ok ()
  UpdateFolder := fun _ _ => (true, ())
  Begin := fun _ => ⟨1, 0⟩
  End := fun _ => ⟨2, 0⟩
  GetChannelList := fun _ => [3]
  GetNamedChannelData := fun _ _ n =>
    if n = "gain" then some (lit 1 0)
    else if n = "gain_err" then some (lit 2 0)
    else if n = "shaping_time" then some (lit 3 0)
    else if n = "shaping_time_err" then some (lit 4 0)
    else none
  toFloat := keepLit
  narrow := fun x => x
  wireChannels := [1, 2]
  fileLines := fun _ => none
  MaxTimeStamp := ⟨100, 9⟩

/-- A configuration for the stateless environment that selects the database. -/
def unitDbConfig : ParameterSet Lit32 Unit :=
  ⟨some (), some true, none, none, none, none, none, none⟩

/-- A raw provider for the stateless environment, as it is before the constructor runs
`Reconfigure`. -/
def unitRaw : SIOVElectronicsCalibProvider Lit32 Unit :=
  ⟨(), ⟨⟨0, 0⟩, ⟨0, 0⟩, []⟩, .Default⟩

/-- A provider for evaluation holding rows for channels 1, 2 and 3. -/
def threeRows : SIOVElectronicsCalibProvider Lit32 TestFolder :=
  ⟨quietFolder, ⟨⟨10, 0⟩, ⟨20, 0⟩,
    [⟨1, lit 1 0, lit 1 0, lit 1 0, lit 1 0, ⟨"ElectronicsCalib"⟩⟩,
     ⟨2, lit 2 0, lit 2 0, lit 2 0, lit 2 0, ⟨"ElectronicsCalib"⟩⟩,
     ⟨3, lit 3 0, lit 4 0, lit 5 0, lit 6 0, ⟨"ElectronicsCalib"⟩⟩]⟩, .File⟩

/-! ## Rows and their replacement -/

section Rows

variable {F32 : Type}

theorem rowsOf_addOrReplace_ne (r : ElectronicsCalib F32) (ch : DBChannelID_t)
    (h : r.channel ≠ ch) (d : List (ElectronicsCalib F32)) :
    rowsOf ch (addOrReplace r d) = rowsOf ch d := by
  induction d with
  | nil => simp [addOrReplace, rowsOf, h]
  | cons x xs ih =>
    unfold addOrReplace
    by_cases hx : x.channel = r.channel
    · have hx2 : x.channel ≠ ch := by rw [hx]; exact h
      simp [hx, rowsOf, List.filter_cons, h, hx2]
    · simp only [hx, if_false]
      simp only [rowsOf, List.filter_cons] at ih ⊢
      rw [ih]

theorem rowsOf_addOrReplace_self (r : ElectronicsCalib F32) (d : List (ElectronicsCalib F32))
    (h : (rowsOf r.channel d).length ≤ 1) :
    rowsOf r.channel (addOrReplace r d) = [r] := by
  induction d with
  | nil => simp [addOrReplace, rowsOf]
  | cons x xs ih =>
    unfold addOrReplace
    by_cases hx : x.channel = r.channel
    · simp only [hx, if_true]
      simp only [rowsOf, List.filter_cons, hx, decide_True, if_true, List.length_cons] at h ⊢
      have h0 : (List.filter (fun r1 => decide (r1.channel = r.channel)) xs) = [] := by
        apply List.eq_nil_of_length_eq_zero
        omega
      simp [h0]
    · simp only [hx, if_false]
      simp only [rowsOf, List.filter_cons, hx, decide_False] at h ih ⊢
      simpa using ih h

theorem AtMostOne_nil : AtMostOne ([] : List (ElectronicsCalib F32)) := by
  intro ch; simp [rowsOf]

theorem AtMostOne_addOrReplace (r : ElectronicsCalib F32) (d : List (ElectronicsCalib F32))
    (h : AtMostOne d) : AtMostOne (addOrReplace r d) := by
  intro ch
  by_cases hc : r.channel = ch
  · subst hc
    rw [rowsOf_addOrReplace_self r d (h _)]
    simp
  · rw [rowsOf_addOrReplace_ne r ch hc]
    exact h ch

theorem insertAll_nil (d : List (ElectronicsCalib F32)) : insertAll [] d = d := rfl

theorem insertAll_cons (r : ElectronicsCalib F32) (rows d : List (ElectronicsCalib F32)) :
    insertAll (r :: rows) d = insertAll rows (addOrReplace r d) := rfl

theorem insertAll_append (rows1 rows2 d : List (ElectronicsCalib F32)) :
    insertAll (rows1 ++ rows2) d = insertAll rows2 (insertAll rows1 d) := by
  simp [insertAll, List.foldl_append]

theorem AtMostOne_insertAll (rows d : List (ElectronicsCalib F32)) (h : AtMostOne d) :
    AtMostOne (insertAll rows d) := by
  induction rows generalizing d with
  | nil => exact h
  | cons r rows ih =>
    rw [insertAll_cons]
    exact ih _ (AtMostOne_addOrReplace r d h)

/-- Rows of a channel that none of the inserted rows names are untouched. -/
theorem rowsOf_insertAll_not_mem (ch : DBChannelID_t) (rows d : List (ElectronicsCalib F32))
    (h : ∀ r ∈ rows, r.channel ≠ ch) : rowsOf ch (insertAll rows d) = rowsOf ch d := by
  induction rows generalizing d with
  | nil => rfl
  | cons r rows ih =>
    rw [insertAll_cons, ih _ (fun r1 h1 => h r1 (List.mem_cons_of_mem _ h1))]
    exact rowsOf_addOrReplace_ne r ch (h r (List.mem_cons_self _ _)) d

/-- After the insertions a channel holds exactly the last row inserted for it. -/
theorem rowsOf_insertAll_last (r : ElectronicsCalib F32)
    (pre post d : List (ElectronicsCalib F32)) (hd : AtMostOne d)
    (hpost : ∀ r1 ∈ post, r1.channel ≠ r.channel) :
    rowsOf r.channel (insertAll (pre ++ r :: post) d) = [r] := by
  rw [insertAll_append, insertAll_cons, rowsOf_insertAll_not_mem _ _ _ hpost]
  exact rowsOf_addOrReplace_self r _ (AtMostOne_insertAll pre d hd _)

/-- A row list is empty at a channel that has no row in it. -/
theorem channel_mem_of_rowsOf (d : List (ElectronicsCalib F32)) (r : ElectronicsCalib F32)
    (h : r ∈ d) : r ∈ rowsOf r.channel d := by
  simp [rowsOf, h]

theorem find?_eq_head?_rowsOf (ch : DBChannelID_t) (d : List (ElectronicsCalib F32)) :
    d.find? (fun r1 => decide (r1.channel = ch)) = (rowsOf ch d).head? := by
  induction d with
  | nil => rfl
  | cons x xs ih =>
    by_cases hx : x.channel = ch
    · simp [rowsOf, List.find?_cons, List.filter_cons, hx]
    · have hd : decide (x.channel = ch) = false := by simp [hx]
      simp only [rowsOf, List.find?_cons, List.filter_cons, hd, Bool.false_eq_true, if_false]
      exact ih

/-- The row `GetRow` finds is the row of the channel when there is exactly that one. -/
theorem GetRow_of_rowsOf (s : Snapshot F32) (ch : DBChannelID_t) (r : ElectronicsCalib F32)
    (h : rowsOf ch s.fData = [r]) : s.GetRow ch = .ok r := by
  unfold Snapshot.GetRow
  rw [find?_eq_head?_rowsOf, h]
  rfl

end Rows

/-! ## The three loops as insertions -/

section Loops

variable {F32 F64 P Fld : Type}

theorem last_occurrence {α : Type} (x : α) (l : List α) (h : x ∈ l) :
    ∃ a b, l = a ++ x :: b ∧ x ∉ b := by
  classical
  induction l with
  | nil => cases h
  | cons y ys ih =>
    by_cases hy : x ∈ ys
    · obtain ⟨a, b, hab, hb⟩ := ih hy
      exact ⟨y :: a, b, by simp [hab], hb⟩
    · have hxy : x = y := by
        rcases List.mem_cons.mp h with h1 | h1
        · exact h1
        · exact absurd h1 hy
      subst hxy
      exact ⟨[], ys, rfl, hy⟩

/-- Rows built by a function of the channel: a listed channel holds exactly its row. -/
theorem rowsOf_insertAll_map_mem (f : DBChannelID_t → ElectronicsCalib F32)
    (hf : ∀ ch, (f ch).channel = ch) (chs : List DBChannelID_t)
    (d : List (ElectronicsCalib F32)) (hd : AtMostOne d) (ch : DBChannelID_t) (h : ch ∈ chs) :
    rowsOf ch (insertAll (chs.map f) d) = [f ch] := by
  obtain ⟨a, b, hab, hb⟩ := last_occurrence ch chs h
  subst hab
  have key := rowsOf_insertAll_last (f ch) (a.map f) (b.map f) d hd (by
    intro r1 h1
    obtain ⟨c, hc, rfl⟩ := List.mem_map.mp h1
    rw [hf, hf]
    intro hcc
    exact hb (hcc ▸ hc))
  rw [hf] at key
  simpa using key

/-- Rows built by a function of the channel: an unlisted channel keeps what it had. -/
theorem rowsOf_insertAll_map_not_mem (f : DBChannelID_t → ElectronicsCalib F32)
    (hf : ∀ ch, (f ch).channel = ch) (chs : List DBChannelID_t)
    (d : List (ElectronicsCalib F32)) (ch : DBChannelID_t) (h : ch ∉ chs) :
    rowsOf ch (insertAll (chs.map f) d) = rowsOf ch d := by
  apply rowsOf_insertAll_not_mem
  intro r1 h1
  obtain ⟨c, hc, rfl⟩ := List.mem_map.mp h1
  rw [hf]
  intro hcc
  exact h (hcc ▸ hc)

/-- Every row after inserting into no rows belongs to a listed channel. -/
theorem channel_mem_of_mem_insertAll_map (f : DBChannelID_t → ElectronicsCalib F32)
    (hf : ∀ ch, (f ch).channel = ch) (chs : List DBChannelID_t)
    (r : ElectronicsCalib F32) (h : r ∈ insertAll (chs.map f) []) : r.channel ∈ chs := by
  by_contra hn
  have h1 := channel_mem_of_rowsOf _ r h
  rw [rowsOf_insertAll_map_not_mem f hf chs [] r.channel hn] at h1
  simp [rowsOf] at h1

theorem setLine_eq (dp : ElectronicsCalib F32) (v : LineValues F32) :
    setLine dp v = lineRow v := rfl

/-- The file loop over lines that all convert: their rows are inserted in order. -/
theorem fileLoop_ok (toFloat : FloatLit → Option F32) (lines : List (List Char))
    (vals : List (LineValues F32))
    (h : lines.map (parseLine toFloat) = vals.map Except.ok)
    (dp : ElectronicsCalib F32) (d : Snapshot F32) :
    fileLoop toFloat lines dp d
      = (.ok (), ⟨d.fStart, d.fEnd, insertAll (vals.map lineRow) d.fData⟩) := by
  induction lines generalizing vals dp d with
  | nil =>
    cases vals with
    | nil => rfl
    | cons v vs => simp at h
  | cons l ls ih =>
    cases vals with
    | nil => simp at h
    | cons v vs =>
      simp only [List.map_cons, List.cons.injEq] at h
      simp only [fileLoop, h.1]
      rw [ih vs h.2]
      simp [setLine_eq, Snapshot.AddOrReplaceRow, insertAll_cons]

/-- The file loop stopped by a line that does not convert: the rows of the lines before
it are inserted and stay. -/
theorem fileLoop_error (toFloat : FloatLit → Option F32) (pre : List (List Char))
    (bad : List Char) (post : List (List Char)) (vals : List (LineValues F32)) (e : Error)
    (h : pre.map (parseLine toFloat) = vals.map Except.ok)
    (hbad : parseLine toFloat bad = .error e)
    (dp : ElectronicsCalib F32) (d : Snapshot F32) :
    fileLoop toFloat (pre ++ bad :: post) dp d
      = (.error e, ⟨d.fStart, d.fEnd, insertAll (vals.map lineRow) d.fData⟩) := by
  induction pre generalizing vals dp d with
  | nil =>
    cases vals with
    | nil => simp [fileLoop, hbad, insertAll_nil]
    | cons v vs => simp at h
  | cons l ls ih =>
    cases vals with
    | nil => simp at h
    | cons v vs =>
      simp only [List.map_cons, List.cons.injEq] at h
      rw [List.cons_append]
      simp only [fileLoop, h.1]
      rw [ih vs h.2]
      simp [setLine_eq, Snapshot.AddOrReplaceRow, insertAll_cons]

/-- The loop over the wires: one insertion per wire, of the default record with the
wire's channel. -/
theorem defaultLoop_eq (chs : List DBChannelID_t) (dc : ElectronicsCalib F32)
    (d : Snapshot F32) :
    defaultLoop chs dc d
      = ⟨d.fStart, d.fEnd, insertAll (chs.map (fun ch => dc.SetChannel ch)) d.fData⟩ := by
  induction chs generalizing dc d with
  | nil => rfl
  | cons c cs ih =>
    simp only [defaultLoop]
    rw [ih]
    simp [Snapshot.AddOrReplaceRow, insertAll_cons, ElectronicsCalib.SetChannel]

/-- The loop over the folder's channels when every channel has its four fields. -/
theorem updateLoop_ok [Inhabited F32] (env : Env F32 F64 P Fld) (fld : Fld)
    (f : DBChannelID_t → ElectronicsCalib F32) (chs : List DBChannelID_t)
    (h : ∀ ch ∈ chs, channelRow env fld ch = .ok (f ch)) (d : Snapshot F32) :
    updateLoop env fld chs d = (.ok (), ⟨d.fStart, d.fEnd, insertAll (chs.map f) d.fData⟩) := by
  induction chs generalizing d with
  | nil => rfl
  | cons c cs ih =>
    simp only [updateLoop, h c (List.mem_cons_self _ _)]
    rw [ih (fun ch hch => h ch (List.mem_cons_of_mem _ hch))]
    simp [Snapshot.AddOrReplaceRow, insertAll_cons]

/-- The loop over the folder's channels stopped at a channel that lacks a field. -/
theorem updateLoop_error [Inhabited F32] (env : Env F32 F64 P Fld) (fld : Fld)
    (f : DBChannelID_t → ElectronicsCalib F32) (pre : List DBChannelID_t)
    (bad : DBChannelID_t) (post : List DBChannelID_t) (e : Error)
    (h : ∀ ch ∈ pre, channelRow env fld ch = .ok (f ch))
    (hbad : channelRow env fld bad = .error e) (d : Snapshot F32) :
    updateLoop env fld (pre ++ bad :: post) d
      = (.error e, ⟨d.fStart, d.fEnd, insertAll (pre.map f) d.fData⟩) := by
  induction pre generalizing d with
  | nil => simp [updateLoop, hbad, insertAll_nil]
  | cons c cs ih =>
    rw [List.cons_append]
    simp only [updateLoop, h c (List.mem_cons_self _ _)]
    rw [ih (fun ch hch => h ch (List.mem_cons_of_mem _ hch))]
    simp [Snapshot.AddOrReplaceRow, insertAll_cons]

end Loops

/-! ## Reconfigure in each of its three modes -/

section Modes

variable {F32 F64 P Fld : Type} [Inhabited F32]

theorem Reconfigure_database (env : Env F32 F64 P Fld) (p : ParameterSet F32 P)
    (s : SIOVElectronicsCalibProvider F32 Fld) (q : P) (fld : Fld)
    (hq : p.DatabaseRetrievalAlg = some q) (hf : env.algReconfigure q s.fFolder = .ok fld)
    (hdb : p.UseDB.getD false = true) :
    Reconfigure env p s
      = (.ok (), ⟨fld, ⟨foreverStart env, env.MaxTimeStamp, []⟩, .Database⟩) := by
  simp [Reconfigure, hq, hf, hdb, selectDataSource, foreverStart, Snapshot.Clear,
    Snapshot.SetIoV, IOVTimeStamp.SetStamp]

theorem Reconfigure_file (env : Env F32 F64 P Fld) (p : ParameterSet F32 P)
    (s : SIOVElectronicsCalibProvider F32 Fld) (q : P) (fld : Fld)
    (hq : p.DatabaseRetrievalAlg = some q) (hf : env.algReconfigure q s.fFolder = .ok fld)
    (hdb : p.UseDB.getD false = false) (hfile : p.UseFile.getD false = true)
    (lines : List (List Char)) (hl : env.fileLines (p.FileName.getD "") = some lines) :
    Reconfigure env p s
      = ((fileLoop env.toFloat lines (ElectronicsCalib.new 0)
            ⟨foreverStart env, env.MaxTimeStamp, []⟩).1,
          ⟨fld, (fileLoop env.toFloat lines (ElectronicsCalib.new 0)
            ⟨foreverStart env, env.MaxTimeStamp, []⟩).2, .File⟩) := by
  simp [Reconfigure, hq, hf, hdb, hfile, hl, selectDataSource, foreverStart, Snapshot.Clear,
    Snapshot.SetIoV, IOVTimeStamp.SetStamp]

theorem Reconfigure_default (env : Env F32 F64 P Fld) (p : ParameterSet F32 P)
    (s : SIOVElectronicsCalibProvider F32 Fld) (q : P) (fld : Fld)
    (hq : p.DatabaseRetrievalAlg = some q) (hf : env.algReconfigure q s.fFolder = .ok fld)
    (hdb : p.UseDB.getD false = false) (hfile : p.UseFile.getD false = false)
    (dc : ElectronicsCalib F32) (hdc : defaultCalib p = .ok dc) :
    Reconfigure env p s
      = (.ok (), ⟨fld, defaultLoop env.wireChannels dc
          ⟨foreverStart env, env.MaxTimeStamp, []⟩, .Default⟩) := by
  simp [Reconfigure, hq, hf, hdb, hfile, hdc, selectDataSource, foreverStart, Snapshot.Clear,
    Snapshot.SetIoV, IOVTimeStamp.SetStamp]

/-- The source `Reconfigure` records is the one the two flags select, whatever follows. -/
theorem Reconfigure_fDataSource (env : Env F32 F64 P Fld) (p : ParameterSet F32 P)
    (s : SIOVElectronicsCalibProvider F32 Fld) (q : P) (fld : Fld)
    (hq : p.DatabaseRetrievalAlg = some q) (hf : env.algReconfigure q s.fFolder = .ok fld) :
    (Reconfigure env p s).2.fDataSource
      = selectDataSource (p.UseDB.getD false) (p.UseFile.getD false) := by
  simp only [Reconfigure, hq, hf]
  cases hsel : selectDataSource (p.UseDB.getD false) (p.UseFile.getD false) with
  | Database => rfl
  | File =>
    simp only []
    cases env.fileLines (p.FileName.getD "") <;> simp [hsel]
  | Default =>
    simp only []
    cases defaultCalib p <;> simp [hsel]

end Modes

/-! ## The data source -/

section Claims

variable {F32 F64 P Fld : Type} [Inhabited F32]

/-- C1: once the base class is reconfigured, `Reconfigure` records exactly one data source,
fixed by the two flags alone (an absent flag counts as false): Database whenever `UseDB`
is true, also when `UseFile` is true as well; File when `UseDB` is false and `UseFile` is
true; Default when both are false.  This holds for every file name and whatever the rest
of `Reconfigure` does, and with `UseDB` true `Reconfigure` raises no error at all. -/
theorem C1_data_source_selection (env : Env F32 F64 P Fld) (p : ParameterSet F32 P)
    (s : SIOVElectronicsCalibProvider F32 Fld) (q : P) (fld : Fld)
    (hq : p.DatabaseRetrievalAlg = some q) (hf : env.algReconfigure q s.fFolder = .ok fld) :
    (p.UseDB.getD false = true →
        (Reconfigure env p s).2.fDataSource = .Database ∧ (Reconfigure env p s).1 = .ok ()) ∧
    (p.UseDB.getD false = false → p.UseFile.getD false = true →
        (Reconfigure env p s).2.fDataSource = .File) ∧
    (p.UseDB.getD false = false → p.UseFile.getD false = false →
        (Reconfigure env p s).2.fDataSource = .Default) := by
  refine ⟨fun hdb => ?_, fun hdb hfile => ?_, fun hdb hfile => ?_⟩
  · rw [Reconfigure_database env p s q fld hq hf hdb]
    exact ⟨rfl, rfl⟩
  · rw [Reconfigure_fDataSource env p s q fld hq hf, hdb, hfile]
    rfl
  · rw [Reconfigure_fDataSource env p s q fld hq hf, hdb, hfile]
    rfl

/-- Witness of C1: both flags set, on a provider that was in Default mode. -/
theorem C1_data_source_selection_witness :
    (Reconfigure (testEnv [] "" []) bothFlagsConfig
        (providerWith quietFolder .Default)).2.fDataSource = .Database ∧
    (Reconfigure (testEnv [] "" []) bothFlagsConfig
        (providerWith quietFolder .Default)).1 = .ok () :=
  (C1_data_source_selection (testEnv [] "" []) bothFlagsConfig
    (providerWith quietFolder .Default) quietFolder quietFolder rfl rfl).1 rfl

/-! ## Update -/

/-- The row `Update` builds for a channel from the folder's four values. -/
theorem channelRow_ok (env : Env F32 F64 P Fld) (fld : Fld) (ch : DBChannelID_t)
    (g ge st ste : F64)
    (h1 : env.GetNamedChannelData fld ch "gain" = some g)
    (h2 : env.GetNamedChannelData fld ch "gain_err" = some ge)
    (h3 : env.GetNamedChannelData fld ch "shaping_time" = some st)
    (h4 : env.GetNamedChannelData fld ch "shaping_time_err" = some ste) :
    channelRow env fld ch
      = .ok ⟨ch, env.narrow g, env.narrow ge, env.narrow st, env.narrow ste,
          ⟨"ElectronicsCalib"⟩⟩ := by
  simp [channelRow, h1, h2, h3, h4, ElectronicsCalib.new, ElectronicsCalib.SetGain,
    ElectronicsCalib.SetGainErr, ElectronicsCalib.SetShapingTime,
    ElectronicsCalib.SetShapingTimeErr, ElectronicsCalib.SetExtraInfo]

/-- A row `channelRow` returns carries the channel it was asked for. -/
theorem channelRow_channel (env : Env F32 F64 P Fld) (fld : Fld) (ch : DBChannelID_t)
    (r : ElectronicsCalib F32) (h : channelRow env fld ch = .ok r) : r.channel = ch := by
  unfold channelRow at h
  split at h
  · cases h
  · split at h
    · cases h
    · split at h
      · cases h
      · split at h
        · cases h
        · cases h; rfl

theorem rowOrNew_channel (env : Env F32 F64 P Fld) (fld : Fld) (ch : DBChannelID_t) :
    (rowOrNew env fld ch).channel = ch := by
  unfold rowOrNew
  cases h : channelRow env fld ch with
  | ok r => exact channelRow_channel env fld ch r h
  | error e => rfl

/-- What `Update` does in Database mode when the folder reports a change. -/
theorem Update_changed (env : Env F32 F64 P Fld) (ts : DBTimeStamp_t)
    (s : SIOVElectronicsCalibProvider F32 Fld) (hsrc : s.fDataSource = .Database)
    (hchg : (env.UpdateFolder s.fFolder ts).1 = true) :
    Update env ts s
      = (((updateLoop env (env.UpdateFolder s.fFolder ts).2
              (env.GetChannelList (env.UpdateFolder s.fFolder ts).2)
              ⟨env.Begin (env.UpdateFolder s.fFolder ts).2,
                env.End (env.UpdateFolder s.fFolder ts).2, []⟩).1.map (fun _ => true)),
          ⟨(env.UpdateFolder s.fFolder ts).2,
            (updateLoop env (env.UpdateFolder s.fFolder ts).2
              (env.GetChannelList (env.UpdateFolder s.fFolder ts).2)
              ⟨env.Begin (env.UpdateFolder s.fFolder ts).2,
                env.End (env.UpdateFolder s.fFolder ts).2, []⟩).2, .Database⟩) := by
  unfold Update
  simp only [hsrc, hchg, ne_eq, not_true_eq_false, if_false, Bool.not_true, Bool.false_eq_true,
    Snapshot.Clear, Snapshot.SetIoV]
  split <;> rename_i h <;> simp [h, Except.map]

/-- C2: in Database mode, when `UpdateFolder(ts)` reports a change and every listed
channel has the four named fields, `Update(ts)` returns true; the snapshot then has the
folder's validity interval, holds for each listed channel exactly one row (the channel id,
the folder's four values narrowed to `float`, provenance "ElectronicsCalib"), which is
also what the lookup returns, and holds no row of any channel that is not listed, so none
of the previous snapshot's rows for other channels remains. -/
theorem C2_update_rebuilds_snapshot (env : Env F32 F64 P Fld) (ts : DBTimeStamp_t)
    (s : SIOVElectronicsCalibProvider F32 Fld) (hsrc : s.fDataSource = .Database)
    (hchg : (env.UpdateFolder s.fFolder ts).1 = true)
    (hfields : ∀ ch ∈ env.GetChannelList (env.UpdateFolder s.fFolder ts).2,
      ∀ name ∈ ["gain", "gain_err", "shaping_time", "shaping_time_err"],
        (env.GetNamedChannelData (env.UpdateFolder s.fFolder ts).2 ch name).isSome = true) :
    (Update env ts s).1 = .ok true ∧
    (Update env ts s).2.fData.fStart = env.Begin (env.UpdateFolder s.fFolder ts).2 ∧
    (Update env ts s).2.fData.fEnd = env.End (env.UpdateFolder s.fFolder ts).2 ∧
    (∀ ch ∈ env.GetChannelList (env.UpdateFolder s.fFolder ts).2, ∀ g ge st ste : F64,
      env.GetNamedChannelData (env.UpdateFolder s.fFolder ts).2 ch "gain" = some g →
      env.GetNamedChannelData (env.UpdateFolder s.fFolder ts).2 ch "gain_err" = some ge →
      env.GetNamedChannelData (env.UpdateFolder s.fFolder ts).2 ch "shaping_time" = some st →
      env.GetNamedChannelData (env.UpdateFolder s.fFolder ts).2 ch "shaping_time_err" = some ste →
        rowsOf ch (Update env ts s).2.fData.fData
          = [⟨ch, env.narrow g, env.narrow ge, env.narrow st, env.narrow ste,
              ⟨"ElectronicsCalib"⟩⟩] ∧
        ElectronicsCalibObject (Update env ts s).2 ch
          = .ok ⟨ch, env.narrow g, env.narrow ge, env.narrow st, env.narrow ste,
              ⟨"ElectronicsCalib"⟩⟩) ∧
    (∀ r ∈ (Update env ts s).2.fData.fData,
      r.channel ∈ env.GetChannelList (env.UpdateFolder s.fFolder ts).2) := by
  have hrow : ∀ ch ∈ env.GetChannelList (env.UpdateFolder s.fFolder ts).2,
      channelRow env (env.UpdateFolder s.fFolder ts).2 ch
        = .ok (rowOrNew env (env.UpdateFolder s.fFolder ts).2 ch) := by
    intro ch hch
    have h1 := hfields ch hch "gain" (by simp)
    have h2 := hfields ch hch "gain_err" (by simp)
    have h3 := hfields ch hch "shaping_time" (by simp)
    have h4 := hfields ch hch "shaping_time_err" (by simp)
    obtain ⟨g, hg⟩ := Option.isSome_iff_exists.mp h1
    obtain ⟨ge, hge⟩ := Option.isSome_iff_exists.mp h2
    obtain ⟨st, hst⟩ := Option.isSome_iff_exists.mp h3
    obtain ⟨ste, hste⟩ := Option.isSome_iff_exists.mp h4
    simp [rowOrNew, channelRow_ok env _ ch g ge st ste hg hge hst hste]
  rw [Update_changed env ts s hsrc hchg, updateLoop_ok env _ _ _ hrow]
  refine ⟨rfl, rfl, rfl, ?_, ?_⟩
  · intro ch hch g ge st ste hg hge hst hste
    have hr : rowsOf ch (insertAll ((env.GetChannelList (env.UpdateFolder s.fFolder ts).2).map
          (rowOrNew env (env.UpdateFolder s.fFolder ts).2)) [])
        = [⟨ch, env.narrow g, env.narrow ge, env.narrow st, env.narrow ste,
            ⟨"ElectronicsCalib"⟩⟩] := by
      rw [rowsOf_insertAll_map_mem _ (rowOrNew_channel env _) _ [] AtMostOne_nil ch hch]
      simp [rowOrNew, channelRow_ok env _ ch g ge st ste hg hge hst hste]
    exact ⟨hr, GetRow_of_rowsOf _ ch _ hr⟩
  · intro r hr
    exact channel_mem_of_mem_insertAll_map _ (rowOrNew_channel env _) _ r hr

/-- Witness of C2: the provider holding a row for channel 9 is refreshed from a folder
that lists channels 3 and 4. -/
theorem C2_update_rebuilds_snapshot_witness :
    (Update (testEnv [] "" []) 5 (providerWith goodFolder .Database)).1 = .ok true ∧
    (Update (testEnv [] "" []) 5 (providerWith goodFolder .Database)).2.fData.fStart
      = ⟨1, 0⟩ ∧
    ElectronicsCalibObject (Update (testEnv [] "" []) 5 (providerWith goodFolder .Database)).2 4
      = .ok ⟨4, lit 5 0, lit 6 0, lit 7 0, lit 8 0, ⟨"ElectronicsCalib"⟩⟩ ∧
    rowsOf 9 (Update (testEnv [] "" []) 5 (providerWith goodFolder .Database)).2.fData.fData
      = [] :=
  have h := C2_update_rebuilds_snapshot (testEnv [] "" []) 5 (providerWith goodFolder .Database)
    rfl rfl (by decide)
  ⟨h.1, h.2.1, (h.2.2.2.1 4 (by decide) (lit 5 0) (lit 6 0) (lit 7 0) (lit 8 0)
    rfl rfl rfl rfl).2, by decide⟩

/-- What `Update` does in Database mode when the folder reports no change. -/
theorem Update_unchanged (env : Env F32 F64 P Fld) (ts : DBTimeStamp_t)
    (s : SIOVElectronicsCalibProvider F32 Fld) (hsrc : s.fDataSource = .Database)
    (hchg : (env.UpdateFolder s.fFolder ts).1 = false) :
    Update env ts s = (.ok false, { s with fFolder := (env.UpdateFolder s.fFolder ts).2 }) := by
  simp [Update, hsrc, hchg]

/-- C3: in Database mode, when the folder reports no change for `ts`, `Update(ts)` returns
false and leaves the snapshot, interval and rows, and the data source as they were; and
when the folder reports no change on a second call either, the second `Update(ts)` returns
false too and the snapshot is still the one from before the first call. -/
theorem C3_update_without_change (env : Env F32 F64 P Fld) (ts : DBTimeStamp_t)
    (s : SIOVElectronicsCalibProvider F32 Fld) (hsrc : s.fDataSource = .Database)
    (hchg : (env.UpdateFolder s.fFolder ts).1 = false) :
    (Update env ts s).1 = .ok false ∧
    (Update env ts s).2.fData = s.fData ∧
    (Update env ts s).2.fDataSource = s.fDataSource ∧
    ((env.UpdateFolder (Update env ts s).2.fFolder ts).1 = false →
      (Update env ts (Update env ts s).2).1 = .ok false ∧
      (Update env ts (Update env ts s).2).2.fData = s.fData) := by
  rw [Update_unchanged env ts s hsrc hchg]
  refine ⟨rfl, rfl, rfl, fun h2 => ?_⟩
  rw [Update_unchanged env ts
    { s with fFolder := (env.UpdateFolder s.fFolder ts).2 } hsrc h2]
  exact ⟨rfl, rfl⟩

/-- Witness of C3: two calls on a folder that reports no change. -/
theorem C3_update_without_change_witness :
    (Update (testEnv [] "" []) 5 (providerWith quietFolder .Database)).1 = .ok false ∧
    (Update (testEnv [] "" []) 5 (providerWith quietFolder .Database)).2.fData
      = (providerWith quietFolder .Database).fData ∧
    (Update (testEnv [] "" []) 5
        (Update (testEnv [] "" []) 5 (providerWith quietFolder .Database)).2).1 = .ok false ∧
    (Update (testEnv [] "" []) 5
        (Update (testEnv [] "" []) 5 (providerWith quietFolder .Database)).2).2.fData
      = (providerWith quietFolder .Database).fData :=
  have h := C3_update_without_change (testEnv [] "" []) 5 (providerWith quietFolder .Database)
    rfl rfl
  ⟨h.1, h.2.1, (h.2.2.2 rfl).1, (h.2.2.2 rfl).2⟩

/-- C4, as stated, fails: the folder lists channel 1 with its four fields and then
channel 2 without `gain`.  `Update` throws the folder's error, and the snapshot, which
held one row for channel 9 valid from `(10, 0)` to `(20, 0)`, now holds one row for
channel 1 valid from `(1, 0)` to `(2, 0)`. -/
theorem C4_failed_update_keeps_snapshot_counterexample :
    (Update (testEnv [] "" []) 5 (providerWith brokenFolder .Database)).1 = .error .webError ∧
    (providerWith brokenFolder .Database).fData
      = ⟨⟨10, 0⟩, ⟨20, 0⟩, [⟨9, lit 9 0, lit 9 0, lit 9 0, lit 9 0, ⟨"ElectronicsCalib"⟩⟩]⟩ ∧
    (Update (testEnv [] "" []) 5 (providerWith brokenFolder .Database)).2.fData
      = ⟨⟨1, 0⟩, ⟨2, 0⟩, [⟨1, lit 1 0, lit 2 0, lit 3 0, lit 4 0, ⟨"ElectronicsCalib"⟩⟩]⟩ ∧
    (Update (testEnv [] "" []) 5 (providerWith brokenFolder .Database)).2.fData
      ≠ (providerWith brokenFolder .Database).fData := by
  decide

/-- C4, amended: in Database mode, when the folder reports a change and a listed channel
lacks one of the four fields while every channel listed before it has them, `Update(ts)`
throws the folder's error and the previous snapshot is not restored: the snapshot holds
the folder's validity interval and exactly the rows inserted for the channels listed
before the failing one, the rows from before the call being gone. -/
theorem C4_failed_update_leaves_built_rows (env : Env F32 F64 P Fld)
    (ts : DBTimeStamp_t) (s : SIOVElectronicsCalibProvider F32 Fld)
    (hsrc : s.fDataSource = .Database)
    (hchg : (env.UpdateFolder s.fFolder ts).1 = true)
    (pre : List DBChannelID_t) (bad : DBChannelID_t) (post : List DBChannelID_t)
    (hlist : env.GetChannelList (env.UpdateFolder s.fFolder ts).2 = pre ++ bad :: post)
    (hpre : ∀ ch ∈ pre, ∀ name ∈ ["gain", "gain_err", "shaping_time", "shaping_time_err"],
      (env.GetNamedChannelData (env.UpdateFolder s.fFolder ts).2 ch name).isSome = true)
    (name : String) (hname : name ∈ ["gain", "gain_err", "shaping_time", "shaping_time_err"])
    (hbad : env.GetNamedChannelData (env.UpdateFolder s.fFolder ts).2 bad name = none) :
    (Update env ts s).1 = .error .webError ∧
    (Update env ts s).2.fData
      = ⟨env.Begin (env.UpdateFolder s.fFolder ts).2, env.End (env.UpdateFolder s.fFolder ts).2,
          insertAll (pre.map (rowOrNew env (env.UpdateFolder s.fFolder ts).2)) []⟩ ∧
    (∀ ch ∈ pre, ∀ g ge st ste : F64,
      env.GetNamedChannelData (env.UpdateFolder s.fFolder ts).2 ch "gain" = some g →
      env.GetNamedChannelData (env.UpdateFolder s.fFolder ts).2 ch "gain_err" = some ge →
      env.GetNamedChannelData (env.UpdateFolder s.fFolder ts).2 ch "shaping_time" = some st →
      env.GetNamedChannelData (env.UpdateFolder s.fFolder ts).2 ch "shaping_time_err" = some ste →
        rowsOf ch (Update env ts s).2.fData.fData
          = [⟨ch, env.narrow g, env.narrow ge, env.narrow st, env.narrow ste,
              ⟨"ElectronicsCalib"⟩⟩]) ∧
    (∀ r ∈ (Update env ts s).2.fData.fData, r.channel ∈ pre) := by
  have hrow : ∀ ch ∈ pre, channelRow env (env.UpdateFolder s.fFolder ts).2 ch
        = .ok (rowOrNew env (env.UpdateFolder s.fFolder ts).2 ch) := by
    intro ch hch
    obtain ⟨g, hg⟩ := Option.isSome_iff_exists.mp (hpre ch hch "gain" (by simp))
    obtain ⟨ge, hge⟩ := Option.isSome_iff_exists.mp (hpre ch hch "gain_err" (by simp))
    obtain ⟨st, hst⟩ := Option.isSome_iff_exists.mp (hpre ch hch "shaping_time" (by simp))
    obtain ⟨ste, hste⟩ :=
      Option.isSome_iff_exists.mp (hpre ch hch "shaping_time_err" (by simp))
    simp [rowOrNew, channelRow_ok env _ ch g ge st ste hg hge hst hste]
  have hb : channelRow env (env.UpdateFolder s.fFolder ts).2 bad = .error .webError := by
    simp only [List.mem_cons, List.mem_singleton, List.not_mem_nil, or_false] at hname
    unfold channelRow
    rcases hname with h | h | h | h <;> subst h <;> (repeat' split) <;> simp_all
  rw [Update_changed env ts s hsrc hchg, hlist, updateLoop_error env _ _ pre bad post _ hrow hb]
  refine ⟨rfl, rfl, ?_, ?_⟩
  · intro ch hch g ge st ste hg hge hst hste
    show rowsOf ch (insertAll (pre.map (rowOrNew env (env.UpdateFolder s.fFolder ts).2)) []) = _
    rw [rowsOf_insertAll_map_mem _ (rowOrNew_channel env _) _ [] AtMostOne_nil ch hch]
    simp [rowOrNew, channelRow_ok env _ ch g ge st ste hg hge hst hste]
  · intro r hr
    exact channel_mem_of_mem_insertAll_map _ (rowOrNew_channel env _) _ r hr

/-- Witness of C4, amended: the folder whose second channel lacks `gain`. -/
theorem C4_failed_update_leaves_built_rows_witness :
    (Update (testEnv [] "" []) 5 (providerWith brokenFolder .Database)).1 = .error .webError ∧
    (Update (testEnv [] "" []) 5 (providerWith brokenFolder .Database)).2.fData
      = ⟨⟨1, 0⟩, ⟨2, 0⟩, insertAll ([1].map (rowOrNew (testEnv [] "" []) brokenFolder)) []⟩ :=
  have h := C4_failed_update_leaves_built_rows (testEnv [] "" []) 5
    (providerWith brokenFolder .Database) rfl rfl [1] 2 [] rfl (by decide) "gain" (by decide) rfl
  ⟨h.1, h.2.1⟩

/-- C10: in Default or File mode, for every time stamp, `Update(ts)` returns false and
leaves the whole provider as it was: the snapshot's interval and rows, and also the
folder, which is not consulted (the result is the same for every environment). -/
theorem C10_update_is_noop_outside_database (env : Env F32 F64 P Fld) (ts : DBTimeStamp_t)
    (s : SIOVElectronicsCalibProvider F32 Fld)
    (hsrc : s.fDataSource = .Default ∨ s.fDataSource = .File) :
    Update env ts s = (.ok false, s) := by
  rcases hsrc with h | h <;> simp [Update, h]

/-- Witness of C10: a provider in File mode next to a folder that would report a change. -/
theorem C10_update_is_noop_outside_database_witness :
    Update (testEnv [] "" []) 5 (providerWith goodFolder .File)
      = (.ok false, providerWith goodFolder .File) :=
  C10_update_is_noop_outside_database (testEnv [] "" []) 5 (providerWith goodFolder .File)
    (Or.inr rfl)

/-! ## Default mode -/

/-- The default record when the four defaults are configured. -/
theorem defaultCalib_ok (p : ParameterSet F32 P) (g ge st ste : F32)
    (h1 : p.DefaultGain = some g) (h2 : p.DefaultGainErr = some ge)
    (h3 : p.DefaultShapingTime = some st) (h4 : p.DefaultShapingTimeErr = some ste) :
    defaultCalib p = .ok ⟨0, g, ge, st, ste, ⟨"ElectronicsCalib"⟩⟩ := by
  simp [defaultCalib, h1, h2, h3, h4, ElectronicsCalib.new, ElectronicsCalib.SetGain,
    ElectronicsCalib.SetGainErr, ElectronicsCalib.SetShapingTime,
    ElectronicsCalib.SetShapingTimeErr, ElectronicsCalib.SetExtraInfo]

/-- C9: in Default mode (both flags false or absent) with the four defaults configured and
the base class reconfigured, for every sequence of channels the geometry enumerates,
`Reconfigure` succeeds and leaves a snapshot valid from the largest time stamp with its
primary tick lowered by one to the largest time stamp, holding for each enumerated channel
exactly one row (that channel's id, the four defaults, provenance "ElectronicsCalib"),
which is what the lookup returns, and no row of any other channel. -/
theorem C9_default_mode_snapshot (env : Env F32 F64 P Fld) (p : ParameterSet F32 P)
    (s : SIOVElectronicsCalibProvider F32 Fld) (q : P) (fld : Fld)
    (hq : p.DatabaseRetrievalAlg = some q) (hf : env.algReconfigure q s.fFolder = .ok fld)
    (hdb : p.UseDB.getD false = false) (hfile : p.UseFile.getD false = false)
    (g ge st ste : F32)
    (h1 : p.DefaultGain = some g) (h2 : p.DefaultGainErr = some ge)
    (h3 : p.DefaultShapingTime = some st) (h4 : p.DefaultShapingTimeErr = some ste) :
    (Reconfigure env p s).1 = .ok () ∧
    (Reconfigure env p s).2.fDataSource = .Default ∧
    (Reconfigure env p s).2.fData.fStart
      = ⟨env.MaxTimeStamp.stamp - 1, env.MaxTimeStamp.substamp⟩ ∧
    (Reconfigure env p s).2.fData.fEnd = env.MaxTimeStamp ∧
    (∀ ch ∈ env.wireChannels,
      rowsOf ch (Reconfigure env p s).2.fData.fData
        = [⟨ch, g, ge, st, ste, ⟨"ElectronicsCalib"⟩⟩] ∧
      ElectronicsCalibObject (Reconfigure env p s).2 ch
        = .ok ⟨ch, g, ge, st, ste, ⟨"ElectronicsCalib"⟩⟩) ∧
    (∀ r ∈ (Reconfigure env p s).2.fData.fData, r.channel ∈ env.wireChannels) := by
  rw [Reconfigure_default env p s q fld hq hf hdb hfile _
    (defaultCalib_ok p g ge st ste h1 h2 h3 h4), defaultLoop_eq]
  refine ⟨rfl, rfl, rfl, rfl, ?_, ?_⟩
  · intro ch hch
    have hr : rowsOf ch (insertAll (env.wireChannels.map (fun c =>
          (⟨0, g, ge, st, ste, ⟨"ElectronicsCalib"⟩⟩ : ElectronicsCalib F32).SetChannel c)) [])
        = [⟨ch, g, ge, st, ste, ⟨"ElectronicsCalib"⟩⟩] := by
      rw [rowsOf_insertAll_map_mem _ (fun _ => rfl) _ [] AtMostOne_nil ch hch]
      rfl
    exact ⟨hr, GetRow_of_rowsOf _ ch _ hr⟩
  · intro r hr
    exact channel_mem_of_mem_insertAll_map _ (fun _ => rfl) _ r hr

/-- Witness of C9: the geometry enumerates channels 1 and 2 and the defaults are 1.5, 0.1,
2.0 and 0.05; the lookup of either channel gives the gain 1.5. -/
theorem C9_default_mode_snapshot_witness :
    (Reconfigure (testEnv [1, 2] "" []) defaultConfig (providerWith quietFolder .File)).1
      = .ok () ∧
    ElectronicsCalibObject
        (Reconfigure (testEnv [1, 2] "" []) defaultConfig (providerWith quietFolder .File)).2 1
      = .ok ⟨1, lit 15 (-1), lit 1 (-1), lit 20 (-1), lit 5 (-2), ⟨"ElectronicsCalib"⟩⟩ ∧
    ElectronicsCalibObject
        (Reconfigure (testEnv [1, 2] "" []) defaultConfig (providerWith quietFolder .File)).2 2
      = .ok ⟨2, lit 15 (-1), lit 1 (-1), lit 20 (-1), lit 5 (-2), ⟨"ElectronicsCalib"⟩⟩ ∧
    (Reconfigure (testEnv [1, 2] "" []) defaultConfig
        (providerWith quietFolder .File)).2.fData.fStart = ⟨99, 9⟩ :=
  have h := C9_default_mode_snapshot (testEnv [1, 2] "" []) defaultConfig
    (providerWith quietFolder .File) _ _ rfl rfl rfl rfl
    (lit 15 (-1)) (lit 1 (-1)) (lit 20 (-1)) (lit 5 (-2)) rfl rfl rfl rfl
  ⟨h.1, (h.2.2.2.2.1 1 (by decide)).2, (h.2.2.2.2.1 2 (by decide)).2, h.2.2.1⟩

end Claims

/-! ## Reading a line of the file -/

section Lines

variable {F32 : Type}

/-- A comma never extends a number. -/
theorem step_comma (q : Scan) : step q ',' = none := by
  rcases q with ⟨neg, ph, best⟩
  cases ph <;> rfl

/-- The scanner stops at a comma: what follows the comma is never read. -/
theorem run_append_comma (q : Scan) (a Y : List Char) :
    run q (a ++ ',' :: Y) = run q a := by
  induction a generalizing q with
  | nil => simp [run, step_comma]
  | cons c cs ih =>
    simp only [List.cons_append, run]
    cases step q c with
    | none => rfl
    | some q1 => exact ih q1

theorem scanFloat_append_comma (a Y : List Char) :
    scanFloat (a ++ ',' :: Y) = scanFloat a := by
  simp [scanFloat, run_append_comma]

theorem stof_append_comma (toFloat : FloatLit → Option F32) (a Y : List Char) :
    stof toFloat (a ++ ',' :: Y) = stof toFloat a := by
  simp [stof, scanFloat_append_comma]

theorem findAux_append (c : Char) (f rest : List Char) (i : Nat) (hf : c ∉ f) :
    findAux c (f ++ c :: rest) i = i + f.length := by
  induction f generalizing i with
  | nil => simp [findAux]
  | cons x xs ih =>
    have hx : x ≠ c := fun h => hf (h ▸ List.mem_cons_self _ _)
    have hxs : c ∉ xs := fun h => hf (List.mem_cons_of_mem _ h)
    rw [List.cons_append]
    simp only [findAux, hx, if_false]
    rw [ih (i + 1) hxs, List.length_cons]
    omega

theorem findAux_not_mem (c : Char) (f : List Char) (i : Nat) (hf : c ∉ f) :
    findAux c f i = npos := by
  induction f generalizing i with
  | nil => rfl
  | cons x xs ih =>
    have hx : x ≠ c := fun h => hf (h ▸ List.mem_cons_self _ _)
    have hxs : c ∉ xs := fun h => hf (List.mem_cons_of_mem _ h)
    simp only [findAux, hx, if_false, ih (i + 1) hxs]

/-- The search for the comma that ends the field starting at `pos`. -/
theorem find_of_drop (line f rest : List Char) (pos : Nat)
    (h : line.drop pos = f ++ ',' :: rest) (hf : ',' ∉ f) :
    find line ',' pos = pos + f.length := by
  simp [find, h, findAux_append _ _ _ _ hf]

/-- The search for a comma after the last one. -/
theorem find_of_drop_last (line f : List Char) (pos : Nat)
    (h : line.drop pos = f) (hf : ',' ∉ f) : find line ',' pos = npos := by
  simp [find, h, findAux_not_mem _ _ _ hf]

/-- Where the next field starts. -/
theorem drop_next (line f rest : List Char) (pos : Nat)
    (h : line.drop pos = f ++ ',' :: rest) : line.drop (pos + f.length + 1) = rest := by
  have h1 : line.drop (pos + f.length + 1) = (line.drop pos).drop (f.length + 1) := by
    rw [List.drop_drop]
    congr 1
  rw [h1, h]
  simp

theorem length_of_drop (line tail : List Char) (pos : Nat) (h : line.drop pos = tail)
    (hne : tail ≠ []) : line.length = pos + tail.length := by
  have h1 : tail.length = line.length - pos := by rw [← h, List.length_drop]
  have h2 : 0 < tail.length := List.length_pos.mpr hne
  omega

/-- The text `substr` hands to the conversion of a field that a comma ends: the field, the
comma, and some of what follows, since the length asked for is a position in the line. -/
theorem substr_of_drop (line f rest : List Char) (pos n : Nat)
    (h : line.drop pos = f ++ ',' :: rest) (hn : f.length + 1 ≤ n) :
    substr line pos n = .ok (f ++ ',' :: rest.take (n - (f.length + 1))) := by
  have hlen := length_of_drop line _ pos h (by simp)
  have hp : ¬ line.length < pos := by omega
  simp only [substr, hp, if_false, h]
  congr 1
  have hm : min n (line.length - pos) = min n (f ++ ',' :: rest).length := by
    rw [hlen]; congr 1; omega
  rw [hm, List.take_append_eq_append_take]
  have h3 : List.take (min n (f ++ ',' :: rest).length) f = f := by
    apply List.take_of_length_le
    simp only [List.length_append, List.length_cons]
    omega
  rw [h3]
  congr 1
  have h4 : min n (f ++ ',' :: rest).length - f.length
      = (min (n - (f.length + 1)) rest.length) + 1 := by
    simp only [List.length_append, List.length_cons]
    omega
  rw [h4, List.take_succ_cons]
  congr 1
  by_cases hc : n - (f.length + 1) ≤ rest.length
  · rw [Nat.min_eq_left hc]
  · rw [Nat.min_eq_right (by omega), List.take_of_length_le (le_refl _),
      List.take_of_length_le (by omega)]

/-- The text `substr` hands to the conversion of the last field of a line: the field. -/
theorem substr_of_drop_last (line f : List Char) (pos : Nat)
    (h : line.drop pos = f) (hpos : pos ≤ line.length) (hlen : line.length < npos) :
    substr line pos npos = .ok f := by
  have hp : ¬ line.length < pos := by omega
  simp only [substr, hp, if_false, h]
  congr 1
  apply List.take_of_length_le
  rw [← h, List.length_drop]
  have : line.length - pos ≤ npos := by omega
  omega

theorem addSize_one (n : Nat) (h : n < npos) : addSize n 1 = n + 1 := by
  unfold addSize
  unfold npos at h
  omega

/-- The text `substr` hands to the conversion of the channel: the first field. -/
theorem substr_first (c rest : List Char) :
    substr (c ++ ',' :: rest) 0 c.length = .ok c := by
  simp [substr]

/-- A line of at least five fields is converted field by field: the channel from the text
before the first comma, each of the four values from the text between two commas (the
last one up to the fifth comma or the end of the line), each from its own text only. -/
theorem parseLine_fields (toFloat : FloatLit → Option F32) (c g ge s se tail : List Char)
    (hc : ',' ∉ c) (hg : ',' ∉ g) (hge : ',' ∉ ge) (hs : ',' ∉ s) (hse : ',' ∉ se)
    (htail : tail = [] ∨ ∃ X, tail = ',' :: X)
    (hlen : (c ++ ',' :: (g ++ ',' :: (ge ++ ',' :: (s ++ ',' :: (se ++ tail))))).length
      < npos) :
    parseLine toFloat (c ++ ',' :: (g ++ ',' :: (ge ++ ',' :: (s ++ ',' :: (se ++ tail)))))
      = parseFields toFloat c g ge s se := by
  generalize hL : c ++ ',' :: (g ++ ',' :: (ge ++ ',' :: (s ++ ',' :: (se ++ tail)))) = L
    at hlen ⊢
  have hLlen : L.length
      = c.length + 1 + g.length + 1 + ge.length + 1 + s.length + 1 + se.length + tail.length := by
    rw [← hL]; simp only [List.length_append, List.length_cons]; omega
  have d0 : L.drop 0 = c ++ ',' :: (g ++ ',' :: (ge ++ ',' :: (s ++ ',' :: (se ++ tail)))) := by
    rw [← hL]; rfl
  have f0 : find L ',' 0 = c.length := by
    have := find_of_drop L _ _ 0 d0 hc
    simpa using this
  have d1 : L.drop (c.length + 1) = g ++ ',' :: (ge ++ ',' :: (s ++ ',' :: (se ++ tail))) := by
    have := drop_next L _ _ 0 d0
    simpa using this
  have f1 := find_of_drop L _ _ _ d1 hg
  have d2 := drop_next L _ _ _ d1
  have f2 := find_of_drop L _ _ _ d2 hge
  have d3 := drop_next L _ _ _ d2
  have f3 := find_of_drop L _ _ _ d3 hs
  have d4 := drop_next L _ _ _ d3
  have s0 : substr L 0 c.length = .ok c := by rw [← hL]; exact substr_first c _
  have s1 := substr_of_drop L _ _ _ (c.length + 1 + g.length) d1 (by omega)
  have s2 := substr_of_drop L _ _ _ (c.length + 1 + g.length + 1 + ge.length) d2 (by omega)
  have s3 := substr_of_drop L _ _ _
    (c.length + 1 + g.length + 1 + ge.length + 1 + s.length) d3 (by omega)
  have a0 : addSize c.length 1 = c.length + 1 := addSize_one _ (by omega)
  have a1 : addSize (c.length + 1 + g.length) 1 = c.length + 1 + g.length + 1 :=
    addSize_one _ (by omega)
  have a2 : addSize (c.length + 1 + g.length + 1 + ge.length) 1
      = c.length + 1 + g.length + 1 + ge.length + 1 := addSize_one _ (by omega)
  have a3 : addSize (c.length + 1 + g.length + 1 + ge.length + 1 + s.length) 1
      = c.length + 1 + g.length + 1 + ge.length + 1 + s.length + 1 := addSize_one _ (by omega)
  unfold parseLine parseFields
  simp only [f0, a0, f1, a1, f2, a2, f3, a3, s0, s1, s2, s3]
  rcases htail with ht | ⟨X, ht⟩
  · subst ht
    rw [List.append_nil] at d4
    have f4 := find_of_drop_last L se _ d4 hse
    have s4 := substr_of_drop_last L se _ d4 (by omega) hlen
    simp only [f4, s4, bind, Except.bind, stof_append_comma]
  · subst ht
    have f4 := find_of_drop L _ _ _ d4 hse
    have s4 := substr_of_drop L _ _ _
      (c.length + 1 + g.length + 1 + ge.length + 1 + s.length + 1 + se.length) d4 (by omega)
    simp only [f4, s4, bind, Except.bind, stof_append_comma]

end Lines

/-! ## Plain decimal texts -/

section Decimals

variable {F32 : Type}

theorem digit_cases (c : Char) (h : c.isDigit = true) :
    c ∈ ['0', '1', '2', '3', '4', '5', '6', '7', '8', '9'] := by
  have h1 : 48 ≤ c.toNat ∧ c.toNat ≤ 57 := by
    simp only [Char.isDigit, Bool.and_eq_true, decide_eq_true_eq] at h
    exact ⟨h.1, h.2⟩
  have h2 : c = Char.ofNat c.toNat := (Char.ofNat_toNat c).symm
  rw [h2]
  obtain ⟨a, b⟩ := h1
  generalize c.toNat = n at a b
  interval_cases n <;> decide

theorem digit_facts_list : ∀ c ∈ ['0', '1', '2', '3', '4', '5', '6', '7', '8', '9'],
    isspace c = false ∧ (c == '-') = false ∧ (c == '+') = false ∧ (c == '.') = false ∧
    (c.toLower == 'x') = false ∧ (c.toLower == 'e') = false ∧ c ≠ ',' ∧
    ((c == '0') = true → digitVal c = 0) := by
  decide

theorem digit_facts (c : Char) (h : c.isDigit = true) :
    isspace c = false ∧ (c == '-') = false ∧ (c == '+') = false ∧ (c == '.') = false ∧
    (c.toLower == 'x') = false ∧ (c.toLower == 'e') = false ∧ c ≠ ',' ∧
    ((c == '0') = true → digitVal c = 0) :=
  digit_facts_list c (digit_cases c h)

theorem digitsVal_nil (m : Nat) : digitsVal m [] = m := rfl

theorem digitsVal_cons (m : Nat) (c : Char) (cs : List Char) :
    digitsVal m (c :: cs) = digitsVal (10 * m + digitVal c) cs := rfl

theorem digitsVal_append (m : Nat) (a b : List Char) :
    digitsVal m (a ++ b) = digitsVal (digitsVal m a) b := by
  induction a generalizing m with
  | nil => rfl
  | cons x xs ih =>
    rw [List.cons_append, digitsVal_cons, digitsVal_cons]
    exact ih _

/-- The scanner through the digits of the integer part. -/
theorem run_int_digits (neg : Bool) (ds tl : List Char) (m : Nat)
    (hds : ∀ c ∈ ds, c.isDigit = true) :
    run ⟨neg, .int m, some (.dec neg m 0)⟩ (ds ++ tl)
      = run ⟨neg, .int (digitsVal m ds), some (.dec neg (digitsVal m ds) 0)⟩ tl := by
  induction ds generalizing m with
  | nil => rfl
  | cons d ds ih =>
    have hd := hds d (List.mem_cons_self _ _)
    rw [List.cons_append]
    simp only [run, step, stepInt, hd, if_true, digitsVal_cons]
    exact ih _ (fun c hc => hds c (List.mem_cons_of_mem _ hc))

/-- The scanner through the digits of the fraction. -/
theorem run_frac_digits (neg : Bool) (ds : List Char) (m k : Nat) (b : Option FloatLit)
    (hds : ∀ c ∈ ds, c.isDigit = true) :
    (run ⟨neg, .frac m k, b⟩ ds).best
      = if ds = [] then b
        else some (.dec neg (digitsVal m ds) (-((k + ds.length : Nat) : Int))) := by
  induction ds generalizing m k b with
  | nil => rfl
  | cons d ds ih =>
    have hd := hds d (List.mem_cons_self _ _)
    simp only [run, step, hd, if_true, digitsVal_cons]
    rw [ih _ _ _ (fun c hc => hds c (List.mem_cons_of_mem _ hc))]
    by_cases hnil : ds = []
    · subst hnil; simp [digitsVal_nil]
    · simp only [hnil, if_false, List.length_cons, reduceCtorEq]
      congr 3
      omega

/-- After a single leading zero the scanner goes on as in the integer digits, unless the
next character is the `x` of a hexadecimal number. -/
theorem run_zero_best (neg : Bool) (b : Option FloatLit) (u : List Char)
    (hu : ∀ c ∈ u.head?, (c.toLower == 'x') = false) :
    (run ⟨neg, .zero, b⟩ u).best = (run ⟨neg, .int 0, b⟩ u).best := by
  cases u with
  | nil => rfl
  | cons c cs =>
    have hc := hu c (by simp)
    simp only [run, step, hc, Bool.false_eq_true, if_false, stepInt]
    split_ifs <;> rfl

/-- The scanner over an integer part and what the file format lets follow it. -/
theorem run_int_part_best (neg : Bool) (ip : List Char) (fp : Option (List Char)) (m : Nat)
    (hip : ∀ c ∈ ip, c.isDigit = true) (hfp : ∀ c ∈ fp.getD [], c.isDigit = true) :
    (run ⟨neg, .int m, some (.dec neg m 0)⟩
        (ip ++ PlainDecimal.pointText fp)).best
      = some (.dec neg (digitsVal m (ip ++ fp.getD [])) (-((fp.getD []).length : Int))) := by
  rw [run_int_digits neg ip _ m hip, digitsVal_append]
  cases fp with
  | none => simp [run, digitsVal_nil, PlainDecimal.pointText]
  | some f =>
    simp only [Option.getD_some, PlainDecimal.pointText] at hfp ⊢
    have hstep : step ⟨neg, .int (digitsVal m ip), some (.dec neg (digitsVal m ip) 0)⟩ '.'
        = some ⟨neg, .frac (digitsVal m ip) 0, some (.dec neg (digitsVal m ip) 0)⟩ := rfl
    simp only [run, hstep]
    rw [run_frac_digits neg f _ 0 _ hfp]
    by_cases hnil : f = []
    · subst hnil; simp [digitsVal_nil]
    · simp [hnil]

/-- The scanner, the sign behind it, over the digits and the point of a plain decimal. -/
theorem run_start_plain (neg : Bool) (ip : List Char) (fp : Option (List Char))
    (hip : ∀ c ∈ ip, c.isDigit = true) (hfp : ∀ c ∈ fp.getD [], c.isDigit = true)
    (hne : ip ≠ [] ∨ fp.getD [] ≠ []) :
    (run ⟨neg, .start, none⟩
        (ip ++ PlainDecimal.pointText fp)).best
      = some (.dec neg (digitsVal 0 (ip ++ fp.getD [])) (-((fp.getD []).length : Int))) := by
  cases ip with
  | cons d ds =>
    have hd := hip d (List.mem_cons_self _ _)
    have hds : ∀ c ∈ ds, c.isDigit = true := fun c hc => hip c (List.mem_cons_of_mem _ hc)
    have hfacts := digit_facts d hd
    rw [List.cons_append, List.cons_append, digitsVal_cons]
    by_cases h0 : (d == '0') = true
    · have hstep : step ⟨neg, .start, none⟩ d = some ⟨neg, .zero, some (.dec neg 0 0)⟩ := by
        simp [step, stepStart, hd, h0]
      simp only [run, hstep]
      rw [run_zero_best, run_int_part_best neg ds fp 0 hds hfp, hfacts.2.2.2.2.2.2.2 h0]
      intro c hc
      cases ds with
      | cons d2 ds2 =>
        simp only [List.cons_append, List.head?_cons, Option.mem_def, Option.some.injEq] at hc
        subst hc
        exact (digit_facts _ (hds _ (List.mem_cons_self _ _))).2.2.2.2.1
      | nil =>
        cases fp with
        | none => simp [PlainDecimal.pointText] at hc
        | some f =>
          simp only [List.nil_append, List.head?_cons, Option.mem_def, Option.some.injEq,
            PlainDecimal.pointText] at hc
          subst hc
          decide
    · have hstep : step ⟨neg, .start, none⟩ d
          = some ⟨neg, .int (digitVal d), some (.dec neg (digitVal d) 0)⟩ := by
        simp [step, stepStart, hd, h0]
      simp only [run, hstep]
      rw [run_int_part_best neg ds fp _ hds hfp]
      simp
  | nil =>
    cases fp with
    | none => simp at hne
    | some f =>
      cases f with
      | nil => simp at hne
      | cons d ds =>
        simp only [Option.getD_some] at hfp
        have hd := hfp d (List.mem_cons_self _ _)
        have hds : ∀ c ∈ ds, c.isDigit = true :=
          fun c hc => hfp c (List.mem_cons_of_mem _ hc)
        have hstep1 : step ⟨neg, .start, none⟩ '.' = some ⟨neg, .point0, none⟩ := rfl
        have hstep2 : step ⟨neg, .point0, none⟩ d
            = some ⟨neg, .frac (digitVal d) 1, some (.dec neg (digitVal d) (-1))⟩ := by
          simp [step, hd]
        simp only [List.nil_append, run, hstep1, hstep2, Option.getD_some, digitsVal_cons,
          PlainDecimal.pointText]
        rw [run_frac_digits neg ds _ 1 _ hds]
        by_cases hnil : ds = []
        · subst hnil; simp [digitsVal_nil]
        · simp only [hnil, if_false, List.length_cons, Nat.mul_zero, Nat.zero_add]
          congr 3
          omega

theorem PlainDecimal.wf_iff (d : PlainDecimal) :
    d.wf = true ↔ (∀ c ∈ d.ip, c.isDigit = true) ∧ (∀ c ∈ d.frac, c.isDigit = true) ∧
      (d.ip ≠ [] ∨ d.frac ≠ []) := by
  simp only [PlainDecimal.wf, Bool.and_eq_true, List.all_eq_true, Bool.not_eq_true',
    Bool.and_eq_false_imp, List.isEmpty_iff]
  constructor
  · rintro ⟨⟨h1, h2⟩, h3⟩
    refine ⟨h1, h2, ?_⟩
    by_cases hip : d.ip = []
    · right
      intro hf
      have := h3 hip
      simp [hf] at this
    · exact Or.inl hip
  · rintro ⟨h1, h2, h3⟩
    refine ⟨⟨h1, h2⟩, fun hip => ?_⟩
    rcases h3 with h3 | h3
    · exact absurd hip h3
    · cases hf : d.frac with
      | nil => exact absurd hf h3
      | cons x xs => rfl

/-- The function `strtof` reads a plain decimal text as the number it denotes. -/
theorem scanFloat_plainDecimal (d : PlainDecimal) (hwf : d.wf = true) :
    scanFloat d.text = some d.value := by
  obtain ⟨hip, hfp, hne⟩ := (PlainDecimal.wf_iff d).mp hwf
  have key := run_start_plain d.neg d.ip d.fp hip hfp hne
  rcases d with ⟨neg, ip, fp⟩
  simp only [PlainDecimal.frac] at hip hfp hne key
  simp only [scanFloat, PlainDecimal.text, PlainDecimal.value, PlainDecimal.frac]
  cases neg with
  | true =>
    have hstep : step ⟨false, .ws, none⟩ '-' = some ⟨true, .start, none⟩ := rfl
    rw [if_pos rfl, List.cons_append, List.nil_append]
    simp only [run, hstep]
    exact key
  | false =>
    simp only [Bool.false_eq_true, if_false, List.nil_append]
    rw [← key]
    cases ip with
    | cons c cs =>
      have hc := digit_facts c (hip c (List.mem_cons_self _ _))
      rw [List.cons_append]
      simp only [run]
      have hstep : step ⟨false, .ws, none⟩ c = step ⟨false, .start, none⟩ c := by
        simp [step, hc.1, hc.2.1, hc.2.2.1]
      rw [hstep]
      cases step ⟨false, .start, none⟩ c <;> rfl
    | nil =>
      cases fp with
      | none => simp at hne
      | some f => rfl

/-- A plain decimal text holds no comma. -/
theorem PlainDecimal.comma_not_mem (d : PlainDecimal) (hwf : d.wf = true) :
    ',' ∉ d.text := by
  obtain ⟨hip, hfp, _⟩ := (PlainDecimal.wf_iff d).mp hwf
  rcases d with ⟨neg, ip, fp⟩
  simp only [PlainDecimal.frac] at hip hfp
  have h1 : ',' ∉ ip := fun h => (digit_facts _ (hip _ h)).2.2.2.2.2.2.1 rfl
  have h2 : ',' ∉ fp.getD [] := fun h => (digit_facts _ (hfp _ h)).2.2.2.2.2.2.1 rfl
  simp only [PlainDecimal.text]
  cases neg <;> cases fp <;> simp_all [PlainDecimal.pointText]

/-- The function `std::stoi` on a run of digits whose value fits `int`. -/
theorem stoi_digits (c : List Char) (hne : c ≠ []) (hc : ∀ x ∈ c, x.isDigit = true)
    (hfit : digitsVal 0 c ≤ 2147483647) : stoi c = .ok (digitsVal 0 c : Int) := by
  cases c with
  | nil => exact absurd rfl hne
  | cons x xs =>
    have hx := digit_facts x (hc x (List.mem_cons_self _ _))
    have h1 : (x :: xs).dropWhile isspace = x :: xs := by
      simp [List.dropWhile_cons, hx.1]
    have h2 : (x :: xs).takeWhile Char.isDigit = x :: xs := by
      rw [List.takeWhile_eq_self_iff]
      exact hc
    have hm : (some x == some '-') = false := by
      have := hx.2.1
      simpa using this
    have hp : (some x == some '+') = false := by
      have := hx.2.2.1
      simpa using this
    unfold stoi
    simp only [h1, List.head?_cons, hm, hp, Bool.or_false, Bool.false_eq_true, if_false, h2,
      reduceCtorEq]
    have h3 : ¬ (((digitsVal 0 (x :: xs) : Nat) : Int) < -2147483648 ∨
        2147483647 < ((digitsVal 0 (x :: xs) : Nat) : Int)) := by omega
    simp only [h3, if_false]

theorem toChannel_natCast (n : Nat) (h : n ≤ 2147483647) : toChannel (n : Int) = n := by
  unfold toChannel
  have h1 : (n : Int) % 4294967296 = n := Int.emod_eq_of_lt (by omega) (by omega)
  rw [h1]
  exact Int.toNat_ofNat n

end Decimals

/-! ## File mode -/

section FileClaims

variable {F32 F64 P Fld : Type}

/-- C5, as stated, fails: the line `2147483648,1,1,1,1` is made of five plain decimal
fields and its first field is a non-negative integer, as a channel identifier is, but
`std::stoi` rejects it as out of the range of `int`: the load throws and the snapshot
holds no row. -/
theorem C5_plain_decimal_line_counterexample :
    parseLine (testEnv [] "calib.txt" ["2147483648,1,1,1,1"]).toFloat
        "2147483648,1,1,1,1".toList = .error .out_of_range ∧
    (Reconfigure (testEnv [] "calib.txt" ["2147483648,1,1,1,1"]) (fileConfig "calib.txt")
        (providerWith quietFolder .File)).1 = .error .out_of_range ∧
    (Reconfigure (testEnv [] "calib.txt" ["2147483648,1,1,1,1"]) (fileConfig "calib.txt")
        (providerWith quietFolder .File)).2.fData.fData = [] := by
  decide

/-- C5, amended: for every file line made of exactly five comma-separated fields
`c,g,ge,s,se` where `c` is a run of digits of value at most 2147483647 and `g`, `ge`, `s`,
`se` are plain decimals that `strtof` can represent as a `float`, the conversions of the
line give the integer value of `c` as the channel and the `float` values of `g`, `ge`, `s`
and `se` as gain, gain error, shaping time and shaping time error, each read from that
field's own text, and the file loop inserts the row of these values with provenance
"ElectronicsCalib" before it goes on to the next line. -/
theorem C5_plain_decimal_line (toFloat : FloatLit → Option F32) (c : List Char)
    (g ge s se : PlainDecimal) (x1 x2 x3 x4 : F32)
    (hne : c ≠ []) (hc : ∀ x ∈ c, x.isDigit = true) (hfit : digitsVal 0 c ≤ 2147483647)
    (hg : g.wf = true) (hge : ge.wf = true) (hs : s.wf = true) (hse : se.wf = true)
    (h1 : toFloat g.value = some x1) (h2 : toFloat ge.value = some x2)
    (h3 : toFloat s.value = some x3) (h4 : toFloat se.value = some x4)
    (hlen : (fiveFields c g.text ge.text s.text se.text).length < npos) :
    parseLine toFloat (fiveFields c g.text ge.text s.text se.text)
      = .ok ⟨digitsVal 0 c, x1, x2, x3, x4⟩ ∧
    ∀ (rest : List (List Char)) (dp : ElectronicsCalib F32) (d : Snapshot F32),
      fileLoop toFloat (fiveFields c g.text ge.text s.text se.text :: rest) dp d
        = fileLoop toFloat rest ⟨digitsVal 0 c, x1, x2, x3, x4, ⟨"ElectronicsCalib"⟩⟩
            (d.AddOrReplaceRow ⟨digitsVal 0 c, x1, x2, x3, x4, ⟨"ElectronicsCalib"⟩⟩) := by
  have hcc : ',' ∉ c := fun h => (digit_facts _ (hc _ h)).2.2.2.2.2.2.1 rfl
  have hlen2 : (c ++ ',' :: (g.text ++ ',' :: (ge.text ++ ',' :: (s.text ++ ',' ::
      (se.text ++ []))))).length < npos := by
    rw [List.append_nil]; exact hlen
  have hparse : parseLine toFloat (fiveFields c g.text ge.text s.text se.text)
      = .ok ⟨digitsVal 0 c, x1, x2, x3, x4⟩ := by
    have key := parseLine_fields toFloat c g.text ge.text s.text se.text []
      hcc (g.comma_not_mem hg) (ge.comma_not_mem hge) (s.comma_not_mem hs)
      (se.comma_not_mem hse) (Or.inl rfl) hlen2
    rw [List.append_nil] at key
    unfold fiveFields
    rw [key]
    simp only [parseFields, stoi_digits c hne hc hfit, stof, scanFloat_plainDecimal, hg, hge,
      hs, hse, h1, h2, h3, h4, bind, Except.bind, pure, Except.pure,
      toChannel_natCast _ hfit]
  refine ⟨hparse, fun rest dp d => ?_⟩
  simp only [fileLoop, hparse]
  rfl

/-- Witness of C5: the line `7,2.2,0.3,1.1,0.2`, and the lookup of channel 7 after the
file holding this one line is loaded. -/
theorem C5_plain_decimal_line_witness :
    parseLine keepLit "7,2.2,0.3,1.1,0.2".toList
      = .ok ⟨7, lit 22 (-1), lit 3 (-1), lit 11 (-1), lit 2 (-1)⟩ ∧
    ElectronicsCalibObject
        (Reconfigure (testEnv [] "calib.txt" ["7,2.2,0.3,1.1,0.2"]) (fileConfig "calib.txt")
          (providerWith quietFolder .File)).2 7
      = .ok ⟨7, lit 22 (-1), lit 3 (-1), lit 11 (-1), lit 2 (-1), ⟨"ElectronicsCalib"⟩⟩ :=
  ⟨(C5_plain_decimal_line keepLit ['7']
      ⟨false, ['2'], some ['2']⟩ ⟨false, ['0'], some ['3']⟩ ⟨false, ['1'], some ['1']⟩
      ⟨false, ['0'], some ['2']⟩ (lit 22 (-1)) (lit 3 (-1)) (lit 11 (-1)) (lit 2 (-1))
      (by decide) (by decide) (by decide) (by decide) (by decide) (by decide) (by decide)
      rfl rfl rfl rfl (by decide)).1,
    by decide⟩

/-- C8: only the first five fields of a line are consulted: for every line of exactly five
comma-separated fields, well formed or not, and every text `X`, the conversions of the
line followed by a comma and `X` give what the conversions of the line alone give, the
same values or the same exception. -/
theorem C8_extra_fields_ignored (toFloat : FloatLit → Option F32) (c g ge s se X : List Char)
    (hc : ',' ∉ c) (hg : ',' ∉ g) (hge : ',' ∉ ge) (hs : ',' ∉ s) (hse : ',' ∉ se)
    (hlen : (fiveFields c g ge s se ++ ',' :: X).length < npos) :
    parseLine toFloat (fiveFields c g ge s se ++ ',' :: X)
      = parseLine toFloat (fiveFields c g ge s se) := by
  have e1 : fiveFields c g ge s se ++ ',' :: X
      = c ++ ',' :: (g ++ ',' :: (ge ++ ',' :: (s ++ ',' :: (se ++ ',' :: X)))) := by
    simp [fiveFields]
  have e2 : fiveFields c g ge s se
      = c ++ ',' :: (g ++ ',' :: (ge ++ ',' :: (s ++ ',' :: (se ++ [])))) := by
    simp [fiveFields]
  have hlen1 := hlen
  rw [e1] at hlen1
  have hlen2 : (c ++ ',' :: (g ++ ',' :: (ge ++ ',' :: (s ++ ',' :: (se ++ []))))).length
      < npos := by
    rw [← e2]
    rw [List.length_append] at hlen
    omega
  rw [e1, parseLine_fields toFloat c g ge s se (',' :: X) hc hg hge hs hse
    (Or.inr ⟨X, rfl⟩) hlen1, e2, parseLine_fields toFloat c g ge s se [] hc hg hge hs hse
    (Or.inl rfl) hlen2]

/-- Witness of C8: the line `7,2.2,0.3,1.1,0.2` followed by `,9,x`. -/
theorem C8_extra_fields_ignored_witness :
    parseLine keepLit "7,2.2,0.3,1.1,0.2,9,x".toList
      = parseLine keepLit "7,2.2,0.3,1.1,0.2".toList :=
  C8_extra_fields_ignored keepLit "7".toList "2.2".toList "0.3".toList
    "1.1".toList "0.2".toList "9,x".toList (by decide) (by decide) (by decide) (by decide)
    (by decide) (by decide)

/-- C6, as stated, fails twice.  The file holds `1,1,1,1,1` and then `2,abc,1,1,1`: the
second line aborts the load with `invalid_argument`, and the row of the first line is
still in the snapshot.  And the line `7,2.2abc,0.3,1.1,0.2`, whose gain field is not a
well-formed number, aborts nothing: it is read as gain 2.2. -/
theorem C6_malformed_line_counterexample :
    (Reconfigure (testEnv [] "calib.txt" ["1,1,1,1,1", "2,abc,1,1,1"]) (fileConfig "calib.txt")
        (providerWith quietFolder .File)).1 = .error .invalid_argument ∧
    (Reconfigure (testEnv [] "calib.txt" ["1,1,1,1,1", "2,abc,1,1,1"]) (fileConfig "calib.txt")
        (providerWith quietFolder .File)).2.fData.fData
      = [⟨1, lit 1 0, lit 1 0, lit 1 0, lit 1 0, ⟨"ElectronicsCalib"⟩⟩] ∧
    (Reconfigure (testEnv [] "calib.txt" ["7,2.2abc,0.3,1.1,0.2"]) (fileConfig "calib.txt")
        (providerWith quietFolder .File)).1 = .ok () ∧
    (Reconfigure (testEnv [] "calib.txt" ["7,2.2abc,0.3,1.1,0.2"]) (fileConfig "calib.txt")
        (providerWith quietFolder .File)).2.fData.fData
      = [⟨7, lit 22 (-1), lit 3 (-1), lit 11 (-1), lit 2 (-1), ⟨"ElectronicsCalib"⟩⟩] := by
  decide

/-- C6, amended: in File mode a line on which a conversion throws aborts the load at that
line with the exception of the conversion, the lines after it are not read, and the
snapshot is left with the rows inserted from the lines before it (the rows from before the
load are gone).  A line of at least five fields whose channel field converts and whose
gain field does not start with a number is such a line: its conversion throws
`invalid_argument`. -/
theorem C6_malformed_line_aborts_load [Inhabited F32] (env : Env F32 F64 P Fld)
    (p : ParameterSet F32 P) (st : SIOVElectronicsCalibProvider F32 Fld) (q : P) (fld : Fld)
    (hq : p.DatabaseRetrievalAlg = some q) (hf : env.algReconfigure q st.fFolder = .ok fld)
    (hdb : p.UseDB.getD false = false) (hfile : p.UseFile.getD false = true)
    (pre : List (List Char)) (bad : List Char) (post : List (List Char))
    (hl : env.fileLines (p.FileName.getD "") = some (pre ++ bad :: post))
    (vals : List (LineValues F32)) (e : Error)
    (hpre : pre.map (parseLine env.toFloat) = vals.map Except.ok)
    (hbad : parseLine env.toFloat bad = .error e) :
    ((Reconfigure env p st).1 = .error e ∧
      (Reconfigure env p st).2.fData
        = ⟨⟨env.MaxTimeStamp.stamp - 1, env.MaxTimeStamp.substamp⟩, env.MaxTimeStamp,
            insertAll (vals.map lineRow) []⟩) ∧
    (∀ (c g ge s se tail : List Char) (ch : Int),
      ',' ∉ c → ',' ∉ g → ',' ∉ ge → ',' ∉ s → ',' ∉ se →
      (tail = [] ∨ ∃ X, tail = ',' :: X) →
      (c ++ ',' :: (g ++ ',' :: (ge ++ ',' :: (s ++ ',' :: (se ++ tail))))).length < npos →
      stoi c = .ok ch → scanFloat g = none →
      parseLine env.toFloat (c ++ ',' :: (g ++ ',' :: (ge ++ ',' :: (s ++ ',' :: (se ++ tail)))))
        = .error .invalid_argument) := by
  constructor
  · rw [Reconfigure_file env p st q fld hq hf hdb hfile _ hl,
      fileLoop_error env.toFloat pre bad post vals e hpre hbad]
    exact ⟨rfl, rfl⟩
  · intro c g ge s se tail ch hc hg hge hs hse htail hlen hch hgain
    rw [parseLine_fields env.toFloat c g ge s se tail hc hg hge hs hse htail hlen]
    simp [parseFields, hch, stof, hgain, bind, Except.bind]

/-- Witness of C6, amended: the file holding `1,1,1,1,1` and then `2,abc,1,1,1`. -/
theorem C6_malformed_line_aborts_load_witness :
    (Reconfigure (testEnv [] "calib.txt" ["1,1,1,1,1", "2,abc,1,1,1"]) (fileConfig "calib.txt")
        (providerWith quietFolder .File)).1 = .error .invalid_argument ∧
    (Reconfigure (testEnv [] "calib.txt" ["1,1,1,1,1", "2,abc,1,1,1"]) (fileConfig "calib.txt")
        (providerWith quietFolder .File)).2.fData
      = ⟨⟨99, 9⟩, ⟨100, 9⟩,
          insertAll ([(⟨1, lit 1 0, lit 1 0, lit 1 0, lit 1 0⟩ : LineValues Lit32)].map lineRow)
            []⟩ :=
  (C6_malformed_line_aborts_load (testEnv [] "calib.txt" ["1,1,1,1,1", "2,abc,1,1,1"])
    (fileConfig "calib.txt") (providerWith quietFolder .File) _ _ rfl rfl rfl rfl
    ["1,1,1,1,1".toList] "2,abc,1,1,1".toList [] rfl
    [⟨1, lit 1 0, lit 1 0, lit 1 0, lit 1 0⟩] .invalid_argument (by decide) (by decide)).1

/-- C7: in File mode, when the file loads without error, a channel named by several lines
holds exactly one row after the load, and its values are those of the last line that
names the channel; the lookup returns that row and no error is raised for the
repetition. -/
theorem C7_last_line_wins [Inhabited F32] (env : Env F32 F64 P Fld)
    (p : ParameterSet F32 P) (st : SIOVElectronicsCalibProvider F32 Fld) (q : P) (fld : Fld)
    (hq : p.DatabaseRetrievalAlg = some q) (hf : env.algReconfigure q st.fFolder = .ok fld)
    (hdb : p.UseDB.getD false = false) (hfile : p.UseFile.getD false = true)
    (pre : List (List Char)) (line : List Char) (post : List (List Char))
    (hl : env.fileLines (p.FileName.getD "") = some (pre ++ line :: post))
    (vpre : List (LineValues F32)) (v : LineValues F32) (vpost : List (LineValues F32))
    (hpre : pre.map (parseLine env.toFloat) = vpre.map Except.ok)
    (hline : parseLine env.toFloat line = .ok v)
    (hpost : post.map (parseLine env.toFloat) = vpost.map Except.ok)
    (hlast : ∀ w ∈ vpost, w.ch ≠ v.ch) :
    (Reconfigure env p st).1 = .ok () ∧
    rowsOf v.ch (Reconfigure env p st).2.fData.fData
      = [⟨v.ch, v.gain, v.gain_err, v.shaping_time, v.shaping_time_err,
          ⟨"ElectronicsCalib"⟩⟩] ∧
    ElectronicsCalibObject (Reconfigure env p st).2 v.ch
      = .ok ⟨v.ch, v.gain, v.gain_err, v.shaping_time, v.shaping_time_err,
          ⟨"ElectronicsCalib"⟩⟩ := by
  have hall : (pre ++ line :: post).map (parseLine env.toFloat)
      = (vpre ++ v :: vpost).map Except.ok := by
    simp [hpre, hline, hpost]
  rw [Reconfigure_file env p st q fld hq hf hdb hfile _ hl,
    fileLoop_ok env.toFloat _ _ hall]
  have hr : rowsOf v.ch (insertAll ((vpre ++ v :: vpost).map lineRow) [])
      = [lineRow v] := by
    rw [List.map_append, List.map_cons]
    exact rowsOf_insertAll_last (lineRow v) _ _ [] AtMostOne_nil (by
      intro r1 h1
      obtain ⟨w, hw, rfl⟩ := List.mem_map.mp h1
      exact hlast w hw)
  exact ⟨rfl, hr, GetRow_of_rowsOf _ _ _ hr⟩

/-- Witness of C7: two lines for channel 5 around a line for channel 6. -/
theorem C7_last_line_wins_witness :
    (Reconfigure (testEnv [] "calib.txt" ["5,1,1,1,1", "6,2,2,2,2", "5,3,4,5,6"])
        (fileConfig "calib.txt") (providerWith quietFolder .File)).1 = .ok () ∧
    rowsOf 5 (Reconfigure (testEnv [] "calib.txt" ["5,1,1,1,1", "6,2,2,2,2", "5,3,4,5,6"])
        (fileConfig "calib.txt") (providerWith quietFolder .File)).2.fData.fData
      = [⟨5, lit 3 0, lit 4 0, lit 5 0, lit 6 0, ⟨"ElectronicsCalib"⟩⟩] ∧
    ElectronicsCalibObject
        (Reconfigure (testEnv [] "calib.txt" ["5,1,1,1,1", "6,2,2,2,2", "5,3,4,5,6"])
          (fileConfig "calib.txt") (providerWith quietFolder .File)).2 5
      = .ok ⟨5, lit 3 0, lit 4 0, lit 5 0, lit 6 0, ⟨"ElectronicsCalib"⟩⟩ :=
  C7_last_line_wins (testEnv [] "calib.txt" ["5,1,1,1,1", "6,2,2,2,2", "5,3,4,5,6"])
    (fileConfig "calib.txt") (providerWith quietFolder .File) _ _ rfl rfl rfl rfl
    ["5,1,1,1,1".toList, "6,2,2,2,2".toList] "5,3,4,5,6".toList [] rfl
    [⟨5, lit 1 0, lit 1 0, lit 1 0, lit 1 0⟩, ⟨6, lit 2 0, lit 2 0, lit 2 0, lit 2 0⟩]
    ⟨5, lit 3 0, lit 4 0, lit 5 0, lit 6 0⟩ [] (by decide) (by decide) rfl (by decide)

end FileClaims

/-! ## The queries -/

section Queries

variable {F32 F64 P Fld : Type}

/-- The lookup in terms of the rows of the channel: their first, or the failure. -/
theorem ElectronicsCalibObject_eq (s : SIOVElectronicsCalibProvider F32 Fld)
    (ch : DBChannelID_t) :
    ElectronicsCalibObject s ch
      = match (rowsOf ch s.fData.fData).head? with
        | some r => .ok r
        | none => .error .channelNotFound := by
  unfold ElectronicsCalibObject Snapshot.GetRow
  rw [find?_eq_head?_rowsOf]

/-- A row among the rows of a channel carries that channel and is in the row list. -/
theorem mem_rowsOf (ch : DBChannelID_t) (d : List (ElectronicsCalib F32))
    (r : ElectronicsCalib F32) (h : r ∈ rowsOf ch d) : r ∈ d ∧ r.channel = ch := by
  simpa [rowsOf] using h

/-- C11: for every channel, the lookup `ElectronicsCalibObject(ch)` fails if and only if
the channel has no row in the current snapshot, and its failure is then the unknown
channel error; otherwise it returns the row of the channel (the one row when the channel
has exactly one, as in every snapshot the loaders build).  The lookup is a function of the
provider alone and hands back no provider: it leaves the state as it is.  The lookup of
channel 99999 in a snapshot holding channels 1, 2 and 3 fails. -/
theorem C11_lookup_fails_iff_absent (s : SIOVElectronicsCalibProvider F32 Fld)
    (ch : DBChannelID_t) :
    ((∃ e, ElectronicsCalibObject s ch = .error e) ↔ rowsOf ch s.fData.fData = []) ∧
    (rowsOf ch s.fData.fData = [] → ElectronicsCalibObject s ch = .error .channelNotFound) ∧
    (∀ r, rowsOf ch s.fData.fData = [r] → ElectronicsCalibObject s ch = .ok r) ∧
    (∀ r, ElectronicsCalibObject s ch = .ok r → r ∈ s.fData.fData ∧ r.channel = ch) ∧
    ElectronicsCalibObject threeRows 99999 = .error .channelNotFound := by
  rw [ElectronicsCalibObject_eq]
  refine ⟨?_, ?_, ?_, ?_, by decide⟩
  · cases h : rowsOf ch s.fData.fData with
    | nil => simp
    | cons x xs => simp
  · intro h
    rw [h]
    rfl
  · intro r h
    rw [h]
    rfl
  · intro r h
    cases hr : rowsOf ch s.fData.fData with
    | nil => rw [hr] at h; simp at h
    | cons x xs =>
      rw [hr] at h
      simp only [List.head?_cons, Except.ok.injEq] at h
      subst h
      exact mem_rowsOf ch _ x (by rw [hr]; exact List.mem_cons_self _ _)

/-- Witness of C11: channel 3 of the snapshot holding channels 1, 2 and 3. -/
theorem C11_lookup_fails_iff_absent_witness :
    ElectronicsCalibObject threeRows 3
      = .ok ⟨3, lit 3 0, lit 4 0, lit 5 0, lit 6 0, ⟨"ElectronicsCalib"⟩⟩ ∧
    ElectronicsCalibObject threeRows 99999 = .error .channelNotFound :=
  ⟨(C11_lookup_fails_iff_absent threeRows 3).2.2.1 _ rfl,
    (C11_lookup_fails_iff_absent threeRows 99999).2.1 rfl⟩

/-- C18: for every channel each of the accessors `Gain`, `GainErr`, `ShapingTime`,
`ShapingTimeErr` and `ExtraInfo` fails exactly when `ElectronicsCalibObject(ch)` fails,
with the same error, and otherwise returns the corresponding field of the record the
lookup returns.  Each is a function of the provider alone and hands back no provider. -/
theorem C18_accessors_project_lookup (s : SIOVElectronicsCalibProvider F32 Fld)
    (ch : DBChannelID_t) :
    (∀ e, ElectronicsCalibObject s ch = .error e →
      Gain s ch = .error e ∧ GainErr s ch = .error e ∧ ShapingTime s ch = .error e ∧
      ShapingTimeErr s ch = .error e ∧ ExtraInfo s ch = .error e) ∧
    (∀ r, ElectronicsCalibObject s ch = .ok r →
      Gain s ch = .ok r.gain ∧ GainErr s ch = .ok r.gainErr ∧
      ShapingTime s ch = .ok r.shapingTime ∧ ShapingTimeErr s ch = .ok r.shapingTimeErr ∧
      ExtraInfo s ch = .ok r.extraInfo) := by
  constructor
  · intro e h
    simp [Gain, GainErr, ShapingTime, ShapingTimeErr, ExtraInfo, h, Except.map]
  · intro r h
    simp [Gain, GainErr, ShapingTime, ShapingTimeErr, ExtraInfo, h, Except.map]

/-- Witness of C18: channel 3, and the absent channel 99999, of the snapshot holding
channels 1, 2 and 3. -/
theorem C18_accessors_project_lookup_witness :
    (Gain threeRows 3 = .ok (lit 3 0) ∧ GainErr threeRows 3 = .ok (lit 4 0) ∧
      ShapingTime threeRows 3 = .ok (lit 5 0) ∧ ShapingTimeErr threeRows 3 = .ok (lit 6 0) ∧
      ExtraInfo threeRows 3 = .ok ⟨"ElectronicsCalib"⟩) ∧
    (Gain threeRows 99999 = .error .channelNotFound ∧
      GainErr threeRows 99999 = .error .channelNotFound ∧
      ShapingTime threeRows 99999 = .error .channelNotFound ∧
      ShapingTimeErr threeRows 99999 = .error .channelNotFound ∧
      ExtraInfo threeRows 99999 = .error .channelNotFound) :=
  ⟨(C18_accessors_project_lookup threeRows 3).2 _ rfl,
    (C18_accessors_project_lookup threeRows 99999).1 _ rfl⟩

end Queries

/-! ## What every call leaves behind -/

section Frames

variable {F32 F64 P Fld : Type}

/-- The file loop, finished or stopped, keeps the interval and the one-row-per-channel
property. -/
theorem fileLoop_frame (toFloat : FloatLit → Option F32) (lines : List (List Char))
    (dp : ElectronicsCalib F32) (d : Snapshot F32) (hd : AtMostOne d.fData) :
    (fileLoop toFloat lines dp d).2.fStart = d.fStart ∧
    (fileLoop toFloat lines dp d).2.fEnd = d.fEnd ∧
    AtMostOne (fileLoop toFloat lines dp d).2.fData := by
  induction lines generalizing dp d with
  | nil => exact ⟨rfl, rfl, hd⟩
  | cons l ls ih =>
    unfold fileLoop
    cases parseLine toFloat l with
    | error e => exact ⟨rfl, rfl, hd⟩
    | ok v => exact ih _ _ (AtMostOne_addOrReplace _ _ hd)

/-- The loop over the wires keeps the interval and the one-row-per-channel property. -/
theorem defaultLoop_frame (chs : List DBChannelID_t) (dc : ElectronicsCalib F32)
    (d : Snapshot F32) (hd : AtMostOne d.fData) :
    (defaultLoop chs dc d).fStart = d.fStart ∧ (defaultLoop chs dc d).fEnd = d.fEnd ∧
    AtMostOne (defaultLoop chs dc d).fData := by
  rw [defaultLoop_eq]
  exact ⟨rfl, rfl, AtMostOne_insertAll _ _ hd⟩

/-- The loop over the folder's channels, finished or stopped, keeps the interval and the
one-row-per-channel property. -/
theorem updateLoop_frame [Inhabited F32] (env : Env F32 F64 P Fld) (fld : Fld)
    (chs : List DBChannelID_t) (d : Snapshot F32) (hd : AtMostOne d.fData) :
    (updateLoop env fld chs d).2.fStart = d.fStart ∧
    (updateLoop env fld chs d).2.fEnd = d.fEnd ∧
    AtMostOne (updateLoop env fld chs d).2.fData := by
  induction chs generalizing d with
  | nil => exact ⟨rfl, rfl, hd⟩
  | cons c cs ih =>
    unfold updateLoop
    cases channelRow env fld c with
    | error e => exact ⟨rfl, rfl, hd⟩
    | ok pg => exact ih _ (AtMostOne_addOrReplace _ _ hd)

/-- When line 25 throws, `Reconfigure` throws and the provider is as it was. -/
theorem Reconfigure_early (env : Env F32 F64 P Fld) [Inhabited F32] (p : ParameterSet F32 P)
    (s : SIOVElectronicsCalibProvider F32 Fld)
    (h : p.DatabaseRetrievalAlg = none ∨
      ∃ q e, p.DatabaseRetrievalAlg = some q ∧ env.algReconfigure q s.fFolder = .error e) :
    (∃ e, (Reconfigure env p s).1 = .error e) ∧ (Reconfigure env p s).2 = s := by
  rcases h with h | ⟨q, e, hq, he⟩
  · simp [Reconfigure, h]
  · simp [Reconfigure, hq, he]

/-- When line 25 returns, `Reconfigure`, whether it then returns or throws, leaves the
folder of line 25, the interval of line 29, the source of lines 37 to 39, and at most one
row per channel. -/
theorem Reconfigure_late (env : Env F32 F64 P Fld) [Inhabited F32] (p : ParameterSet F32 P)
    (s : SIOVElectronicsCalibProvider F32 Fld) (q : P) (fld : Fld)
    (hq : p.DatabaseRetrievalAlg = some q) (hf : env.algReconfigure q s.fFolder = .ok fld) :
    (Reconfigure env p s).2.fFolder = fld ∧
    (Reconfigure env p s).2.fData.fStart
      = ⟨env.MaxTimeStamp.stamp - 1, env.MaxTimeStamp.substamp⟩ ∧
    (Reconfigure env p s).2.fData.fEnd = env.MaxTimeStamp ∧
    (Reconfigure env p s).2.fDataSource
      = selectDataSource (p.UseDB.getD false) (p.UseFile.getD false) ∧
    AtMostOne (Reconfigure env p s).2.fData.fData := by
  have hsrc := Reconfigure_fDataSource env p s q fld hq hf
  refine ⟨?_, ?_, ?_, hsrc, ?_⟩ <;>
  · simp only [Reconfigure, hq, hf]
    cases hsel : selectDataSource (p.UseDB.getD false) (p.UseFile.getD false) with
    | Database => first | rfl | exact AtMostOne_nil
    | File =>
      simp only []
      cases env.fileLines (p.FileName.getD "") with
      | none => first | rfl | exact AtMostOne_nil
      | some lines =>
        have h := fileLoop_frame env.toFloat lines (ElectronicsCalib.new 0)
          ((s.fData.Clear).SetIoV (env.MaxTimeStamp.SetStamp (env.MaxTimeStamp.stamp - 1)
            env.MaxTimeStamp.substamp) env.MaxTimeStamp) AtMostOne_nil
        first | rfl | exact h.1 | exact h.2.1 | exact h.2.2
    | Default =>
      simp only []
      cases defaultCalib p with
      | error e => first | rfl | exact AtMostOne_nil
      | ok dc =>
        have h := defaultLoop_frame env.wireChannels dc
          ((s.fData.Clear).SetIoV (env.MaxTimeStamp.SetStamp (env.MaxTimeStamp.stamp - 1)
            env.MaxTimeStamp.substamp) env.MaxTimeStamp) AtMostOne_nil
        first | rfl | exact h.1 | exact h.2.1 | exact h.2.2

/-- Line 25 of `Reconfigure` either throws or returns. -/
theorem line25_cases (env : Env F32 F64 P Fld) (p : ParameterSet F32 P) (fld0 : Fld) :
    (p.DatabaseRetrievalAlg = none ∨
      ∃ q e, p.DatabaseRetrievalAlg = some q ∧ env.algReconfigure q fld0 = .error e) ∨
    ∃ q fld, p.DatabaseRetrievalAlg = some q ∧ env.algReconfigure q fld0 = .ok fld := by
  cases hq : p.DatabaseRetrievalAlg with
  | none => exact Or.inl (Or.inl rfl)
  | some q =>
    cases hf : env.algReconfigure q fld0 with
    | error e => exact Or.inl (Or.inr ⟨q, e, rfl, hf⟩)
    | ok fld => exact Or.inr ⟨q, fld, rfl, hf⟩

/-- The call `Update` never touches the data source, and either leaves the snapshot as it
was or leaves the folder's interval with at most one row per channel. -/
theorem Update_frame (env : Env F32 F64 P Fld) [Inhabited F32] (ts : DBTimeStamp_t)
    (s : SIOVElectronicsCalibProvider F32 Fld) :
    (Update env ts s).2.fDataSource = s.fDataSource ∧
    ((Update env ts s).2.fData = s.fData ∨
      ((Update env ts s).2.fData.fStart = env.Begin (env.UpdateFolder s.fFolder ts).2 ∧
        (Update env ts s).2.fData.fEnd = env.End (env.UpdateFolder s.fFolder ts).2 ∧
        AtMostOne (Update env ts s).2.fData.fData)) := by
  by_cases hsrc : s.fDataSource = .Database
  · cases hchg : (env.UpdateFolder s.fFolder ts).1 with
    | false =>
      rw [Update_unchanged env ts s hsrc hchg]
      exact ⟨rfl, Or.inl rfl⟩
    | true =>
      rw [Update_changed env ts s hsrc hchg]
      refine ⟨hsrc.symm, Or.inr ?_⟩
      exact updateLoop_frame env _ _ ⟨_, _, []⟩ AtMostOne_nil
  · have h : Update env ts s = (.ok false, s) := by simp [Update, hsrc]
    rw [h]
    exact ⟨rfl, Or.inl rfl⟩

/-- Every provider that can exist holds at most one row per channel. -/
theorem Reachable_atMostOne (env : Env F32 F64 P Fld) [Inhabited F32]
    (s : SIOVElectronicsCalibProvider F32 Fld) (hs : Reachable env s) :
    AtMostOne s.fData.fData := by
  induction hs with
  | construct p raw hok =>
    rcases line25_cases env p raw.fFolder with h | ⟨q, fld, hq, hf⟩
    · obtain ⟨⟨e, he⟩, _⟩ := Reconfigure_early env p raw h
      rw [he] at hok
      cases hok
    · exact (Reconfigure_late env p raw q fld hq hf).2.2.2.2
  | reconfigure p s _ ih =>
    rcases line25_cases env p s.fFolder with h | ⟨q, fld, hq, hf⟩
    · rw [(Reconfigure_early env p s h).2]
      exact ih
    · exact (Reconfigure_late env p s q fld hq hf).2.2.2.2
  | update ts s _ ih =>
    rcases (Update_frame env ts s).2 with h | h
    · rw [h]
      exact ih
    · exact h.2.2

end Frames

/-! ## Invariants of the provider -/

section Invariants

variable {F32 F64 P Fld : Type}

/-- C12: in every provider that can exist, so after `Reconfigure` in Default or File mode
and after every `Update` in Database mode, every channel that has a row has exactly one,
the lookup of the channel returns it, and the record returned carries that channel. -/
theorem C12_lookup_returns_channel [Inhabited F32] (env : Env F32 F64 P Fld)
    (s : SIOVElectronicsCalibProvider F32 Fld) (hs : Reachable env s) (ch : DBChannelID_t)
    (hrow : rowsOf ch s.fData.fData ≠ []) :
    ∃ r, rowsOf ch s.fData.fData = [r] ∧ ElectronicsCalibObject s ch = .ok r ∧
      r.channel = ch := by
  have hone := Reachable_atMostOne env s hs ch
  cases hr : rowsOf ch s.fData.fData with
  | nil => exact absurd hr hrow
  | cons x xs =>
    rw [hr, List.length_cons] at hone
    have hxs : xs = [] := List.eq_nil_of_length_eq_zero (by omega)
    subst hxs
    refine ⟨x, rfl, ?_, ?_⟩
    · rw [ElectronicsCalibObject_eq, hr]
      rfl
    · exact (mem_rowsOf ch _ x (by rw [hr]; exact List.mem_cons_self _ _)).2

/-- Witness of C12: the provider constructed in Default mode over channels 1 and 2; the
record found for channel 2 carries channel 2. -/
theorem C12_lookup_returns_channel_witness :
    (ElectronicsCalibObject
        (Reconfigure (testEnv [1, 2] "" []) defaultConfig
          (providerWith quietFolder .File)).2 2).map (fun r => r.channel) = .ok 2 :=
  match C12_lookup_returns_channel (testEnv [1, 2] "" [])
    (Reconfigure (testEnv [1, 2] "" []) defaultConfig (providerWith quietFolder .File)).2
    (Reachable.construct defaultConfig (providerWith quietFolder .File) rfl) 2 (by decide) with
  | ⟨_, _, h2, h3⟩ => by rw [h2]; simp [Except.map, h3]

/-- The interval of line 29 is ordered when the largest time stamp has a positive primary
tick. -/
theorem forever_lt (m : IOVTimeStamp) (h : 0 < m.stamp) :
    (⟨m.stamp - 1, m.substamp⟩ : IOVTimeStamp) < m := by
  show IOVTimeStamp.lt _ _
  left
  show m.stamp - 1 < m.stamp
  omega

/-- C13: when the largest time stamp has a positive primary tick and every interval of the
folder has its begin before its end, the snapshot of every provider that can exist has
`validFrom < validUntil`: whenever `Reconfigure` gets past its first statement the
interval is the largest time stamp with its primary tick lowered by one and the same
sub-tick, to the largest time stamp, and after an `Update` for which the folder reports a
change it is the folder's begin and end. -/
theorem C13_interval_ordered [Inhabited F32] (env : Env F32 F64 P Fld)
    (hmax : 0 < env.MaxTimeStamp.stamp) (hfolder : ∀ fld, env.Begin fld < env.End fld) :
    (∀ s, Reachable env s → s.fData.fStart < s.fData.fEnd) ∧
    (∀ (p : ParameterSet F32 P) (s : SIOVElectronicsCalibProvider F32 Fld) (q : P) (fld : Fld),
      p.DatabaseRetrievalAlg = some q → env.algReconfigure q s.fFolder = .ok fld →
      (Reconfigure env p s).2.fData.fStart
        = ⟨env.MaxTimeStamp.stamp - 1, env.MaxTimeStamp.substamp⟩ ∧
      (Reconfigure env p s).2.fData.fEnd = env.MaxTimeStamp) ∧
    (∀ (ts : DBTimeStamp_t) (s : SIOVElectronicsCalibProvider F32 Fld),
      s.fDataSource = .Database → (env.UpdateFolder s.fFolder ts).1 = true →
      (Update env ts s).2.fData.fStart = env.Begin (env.UpdateFolder s.fFolder ts).2 ∧
      (Update env ts s).2.fData.fEnd = env.End (env.UpdateFolder s.fFolder ts).2) := by
  refine ⟨?_, ?_, ?_⟩
  · intro s hs
    induction hs with
    | construct p raw hok =>
      rcases line25_cases env p raw.fFolder with h | ⟨q, fld, hq, hf⟩
      · obtain ⟨⟨e, he⟩, _⟩ := Reconfigure_early env p raw h
        rw [he] at hok
        cases hok
      · have h := Reconfigure_late env p raw q fld hq hf
        rw [h.2.1, h.2.2.1]
        exact forever_lt _ hmax
    | reconfigure p s _ ih =>
      rcases line25_cases env p s.fFolder with h | ⟨q, fld, hq, hf⟩
      · rw [(Reconfigure_early env p s h).2]
        exact ih
      · have h := Reconfigure_late env p s q fld hq hf
        rw [h.2.1, h.2.2.1]
        exact forever_lt _ hmax
    | update ts s _ ih =>
      rcases (Update_frame env ts s).2 with h | h
      · rw [h]
        exact ih
      · rw [h.1, h.2.1]
        exact hfolder _
  · intro p s q fld hq hf
    have h := Reconfigure_late env p s q fld hq hf
    exact ⟨h.2.1, h.2.2.1⟩
  · intro ts s hsrc hchg
    rw [Update_changed env ts s hsrc hchg]
    have h := updateLoop_frame env (env.UpdateFolder s.fFolder ts).2
      (env.GetChannelList (env.UpdateFolder s.fFolder ts).2)
      ⟨env.Begin (env.UpdateFolder s.fFolder ts).2,
        env.End (env.UpdateFolder s.fFolder ts).2, []⟩ AtMostOne_nil
    exact ⟨h.1, h.2.1⟩

/-- Witness of C13: a provider constructed in Database mode and then refreshed. -/
theorem C13_interval_ordered_witness :
    (Update unitEnv 5 (Reconfigure unitEnv unitDbConfig unitRaw).2).2.fData.fStart
      < (Update unitEnv 5 (Reconfigure unitEnv unitDbConfig unitRaw).2).2.fData.fEnd :=
  (C13_interval_ordered unitEnv (by decide)
    (fun _ => (by decide : (⟨1, 0⟩ : IOVTimeStamp) < ⟨2, 0⟩))).1 _
    (Reachable.update 5 _ (Reachable.construct unitDbConfig unitRaw rfl))

/-- C17, as stated, fails: a provider constructed in Default mode and then given a
configuration with `UseDB` set is in Database mode after that further `Reconfigure`. -/
theorem C17_data_source_fixed_counterexample :
    (Reconfigure (testEnv [1, 2] "" []) defaultConfig
        (providerWith quietFolder .File)).1 = .ok () ∧
    (Reconfigure (testEnv [1, 2] "" []) defaultConfig
        (providerWith quietFolder .File)).2.fDataSource = .Default ∧
    (Reconfigure (testEnv [1, 2] "" []) (dbConfig quietFolder)
        (Reconfigure (testEnv [1, 2] "" []) defaultConfig
          (providerWith quietFolder .File)).2).2.fDataSource = .Database := by
  decide

/-- C17, amended: `Update` never changes the data source, whatever it returns or throws,
and the queries hand back no provider at all; a further `Reconfigure` chooses the source
anew from the flags of the configuration it is given whenever it gets past its first
statement, and leaves it alone only when that first statement throws. -/
theorem C17_data_source_after_calls [Inhabited F32] (env : Env F32 F64 P Fld)
    (s : SIOVElectronicsCalibProvider F32 Fld) :
    (∀ ts, (Update env ts s).2.fDataSource = s.fDataSource) ∧
    (∀ (p : ParameterSet F32 P) (q : P) (fld : Fld),
      p.DatabaseRetrievalAlg = some q → env.algReconfigure q s.fFolder = .ok fld →
      (Reconfigure env p s).2.fDataSource
        = selectDataSource (p.UseDB.getD false) (p.UseFile.getD false)) ∧
    (∀ (p : ParameterSet F32 P),
      (p.DatabaseRetrievalAlg = none ∨
        ∃ q e, p.DatabaseRetrievalAlg = some q ∧ env.algReconfigure q s.fFolder = .error e) →
      (Reconfigure env p s).2.fDataSource = s.fDataSource) := by
  refine ⟨fun ts => (Update_frame env ts s).1, ?_, ?_⟩
  · intro p q fld hq hf
    exact Reconfigure_fDataSource env p s q fld hq hf
  · intro p h
    rw [(Reconfigure_early env p s h).2]

/-- Witness of C17, amended: a refresh of a Database provider, and a further `Reconfigure`
with both flags set on a provider in Default mode. -/
theorem C17_data_source_after_calls_witness :
    (Update (testEnv [] "" []) 5 (providerWith goodFolder .Database)).2.fDataSource
      = .Database ∧
    (Reconfigure (testEnv [] "" []) bothFlagsConfig
        (providerWith goodFolder .Default)).2.fDataSource = .Database :=
  ⟨(C17_data_source_after_calls (testEnv [] "" []) (providerWith goodFolder .Database)).1 5,
    (C17_data_source_after_calls (testEnv [] "" []) (providerWith goodFolder .Default)).2.1
      bothFlagsConfig quietFolder quietFolder rfl rfl⟩

end Invariants

/-! ## Lines with fewer than five fields -/

section ShortLines

variable {F32 : Type}

end ShortLines

/-! ## Reconfigure again, and Database mode before the first refresh -/

section Again

variable {F32 F64 P Fld : Type}

/-- Calls of `Update` with no change reported keep a Database provider without rows. -/
theorem QuietRun_empty [Inhabited F32] (env : Env F32 F64 P Fld)
    (s t : SIOVElectronicsCalibProvider F32 Fld) (h : QuietRun env s t)
    (hsrc : s.fDataSource = .Database) (hrows : s.fData.fData = []) :
    t.fDataSource = .Database ∧ t.fData.fData = [] := by
  induction h with
  | refl => exact ⟨hsrc, hrows⟩
  | step t ts _ hquiet ih =>
    obtain ⟨h1, h2⟩ := ih
    rw [Update_unchanged env ts t h1 hquiet]
    exact ⟨h1, h2⟩

/-- C20: in Database mode `Reconfigure`, once the base class is reconfigured, returns
normally and leaves the snapshot with no rows and the interval from the largest time stamp
with its primary tick lowered by one to the largest time stamp.  It does so whatever the
folder's queries would answer: an environment that differs only in them gives the same
result.  From then on the lookup of every channel fails, and keeps failing after every
`Update` for which the folder reports no change. -/
theorem C20_database_mode_starts_empty [Inhabited F32] (env : Env F32 F64 P Fld)
    (p : ParameterSet F32 P) (s : SIOVElectronicsCalibProvider F32 Fld) (q : P) (fld : Fld)
    (hq : p.DatabaseRetrievalAlg = some q) (hf : env.algReconfigure q s.fFolder = .ok fld)
    (hdb : p.UseDB.getD false = true) :
    Reconfigure env p s
      = (.ok (), ⟨fld, ⟨⟨env.MaxTimeStamp.stamp - 1, env.MaxTimeStamp.substamp⟩,
          env.MaxTimeStamp, []⟩, .Database⟩) ∧
    (∀ env2 : Env F32 F64 P Fld, env2.algReconfigure = env.algReconfigure →
      env2.MaxTimeStamp = env.MaxTimeStamp → Reconfigure env2 p s = Reconfigure env p s) ∧
    (∀ t, QuietRun env (Reconfigure env p s).2 t →
      ∀ ch, ElectronicsCalibObject t ch = .error .channelNotFound) := by
  have h1 := Reconfigure_database env p s q fld hq hf hdb
  refine ⟨h1, ?_, ?_⟩
  · intro env2 ha hm
    rw [h1, Reconfigure_database env2 p s q fld hq (by rw [ha]; exact hf) hdb]
    simp [foreverStart, hm]
  · intro t ht ch
    have h2 := QuietRun_empty env _ t ht (by rw [h1]) (by rw [h1])
    rw [ElectronicsCalibObject_eq, h2.2]
    rfl

/-- Witness of C20: a provider reconfigured for the database, then refreshed from a folder
that reports no change; channel 3, which the folder does hold, is not found. -/
theorem C20_database_mode_starts_empty_witness :
    (Reconfigure (testEnv [] "" []) (dbConfig quietFolder)
        (providerWith quietFolder .File)).2.fData = ⟨⟨99, 9⟩, ⟨100, 9⟩, []⟩ ∧
    ElectronicsCalibObject
        (Update (testEnv [] "" []) 5
          (Reconfigure (testEnv [] "" []) (dbConfig quietFolder)
            (providerWith quietFolder .File)).2).2 3
      = .error .channelNotFound :=
  have h := C20_database_mode_starts_empty (testEnv [] "" []) (dbConfig quietFolder)
    (providerWith quietFolder .File) quietFolder quietFolder rfl rfl rfl
  ⟨congrArg (fun r => r.2.fData) h.1,
    h.2.2 _ (QuietRun.step _ _ 5 (QuietRun.refl _) rfl) 3⟩

/-- C14: loading a file is deterministic and idempotent.  In File mode, when the base
class is reconfigured on both runs and the first run loads the file without error, a
second `Reconfigure` on the same content also returns normally and leaves a snapshot,
interval and rows, identical to the one after the first; and the snapshot after a run does
not depend on the provider the run started from. -/
theorem C14_file_load_idempotent [Inhabited F32] (env : Env F32 F64 P Fld)
    (p : ParameterSet F32 P) (s : SIOVElectronicsCalibProvider F32 Fld) (q : P)
    (fld1 fld2 : Fld)
    (hq : p.DatabaseRetrievalAlg = some q) (hf1 : env.algReconfigure q s.fFolder = .ok fld1)
    (hf2 : env.algReconfigure q fld1 = .ok fld2)
    (hdb : p.UseDB.getD false = false) (hfile : p.UseFile.getD false = true)
    (lines : List (List Char)) (hl : env.fileLines (p.FileName.getD "") = some lines)
    (hok : (Reconfigure env p s).1 = .ok ()) :
    (Reconfigure env p (Reconfigure env p s).2).1 = .ok () ∧
    (Reconfigure env p (Reconfigure env p s).2).2.fData = (Reconfigure env p s).2.fData ∧
    (∀ (s2 : SIOVElectronicsCalibProvider F32 Fld) (fld3 : Fld),
      env.algReconfigure q s2.fFolder = .ok fld3 →
      (Reconfigure env p s2).2.fData = (Reconfigure env p s).2.fData) := by
  have h1 := Reconfigure_file env p s q fld1 hq hf1 hdb hfile lines hl
  rw [h1] at hok ⊢
  refine ⟨?_, ?_, ?_⟩
  · rw [Reconfigure_file env p _ q fld2 hq hf2 hdb hfile lines hl]
    exact hok
  · rw [Reconfigure_file env p _ q fld2 hq hf2 hdb hfile lines hl]
  · intro s2 fld3 hf3
    rw [Reconfigure_file env p s2 q fld3 hq hf3 hdb hfile lines hl]

/-- Witness of C14: a file of three lines loaded twice, over a provider that held a row
for channel 9. -/
theorem C14_file_load_idempotent_witness :
    (Reconfigure (testEnv [] "calib.txt" ["5,1,1,1,1", "6,2,2,2,2", "5,3,4,5,6"])
        (fileConfig "calib.txt")
        (Reconfigure (testEnv [] "calib.txt" ["5,1,1,1,1", "6,2,2,2,2", "5,3,4,5,6"])
          (fileConfig "calib.txt") (providerWith quietFolder .File)).2).1 = .ok () ∧
    (Reconfigure (testEnv [] "calib.txt" ["5,1,1,1,1", "6,2,2,2,2", "5,3,4,5,6"])
        (fileConfig "calib.txt")
        (Reconfigure (testEnv [] "calib.txt" ["5,1,1,1,1", "6,2,2,2,2", "5,3,4,5,6"])
          (fileConfig "calib.txt") (providerWith quietFolder .File)).2).2.fData
      = (Reconfigure (testEnv [] "calib.txt" ["5,1,1,1,1", "6,2,2,2,2", "5,3,4,5,6"])
          (fileConfig "calib.txt") (providerWith quietFolder .File)).2.fData :=
  have h := C14_file_load_idempotent
    (testEnv [] "calib.txt" ["5,1,1,1,1", "6,2,2,2,2", "5,3,4,5,6"]) (fileConfig "calib.txt")
    (providerWith quietFolder .File) _ _ _ rfl rfl rfl rfl rfl _ rfl (by decide)
  ⟨h.1, h.2.1⟩

/-- The first of the four defaults that is absent makes `defaultCalib` throw. -/
theorem defaultCalib_missing [Inhabited F32] (p : ParameterSet F32 P)
    (h : p.DefaultGain = none ∨ p.DefaultGainErr = none ∨ p.DefaultShapingTime = none ∨
      p.DefaultShapingTimeErr = none) :
    ∃ key ∈ ["DefaultGain", "DefaultGainErr", "DefaultShapingTime", "DefaultShapingTimeErr"],
      defaultCalib p = .error (.cantFind key) := by
  unfold defaultCalib
  cases h1 : p.DefaultGain with
  | none => exact ⟨"DefaultGain", by simp, rfl⟩
  | some g =>
    cases h2 : p.DefaultGainErr with
    | none => exact ⟨"DefaultGainErr", by simp, rfl⟩
    | some ge =>
      cases h3 : p.DefaultShapingTime with
      | none => exact ⟨"DefaultShapingTime", by simp, rfl⟩
      | some st =>
        cases h4 : p.DefaultShapingTimeErr with
        | none => exact ⟨"DefaultShapingTimeErr", by simp, rfl⟩
        | some ste => simp [h1, h2, h3, h4] at h

/-- C15: when the Default source is selected (both flags false or absent) and any of
`DefaultGain`, `DefaultGainErr`, `DefaultShapingTime`, `DefaultShapingTimeErr` is absent,
`Reconfigure` throws the configuration error of a missing key, naming one of the four;
when the Database or the File source is selected the four defaults are not read: with
any of them present or absent `Reconfigure` returns or throws the same and leaves the
same provider. -/
theorem C15_defaults_required_in_default_mode [Inhabited F32] (env : Env F32 F64 P Fld)
    (p : ParameterSet F32 P) (s : SIOVElectronicsCalibProvider F32 Fld) :
    (∀ (q : P) (fld : Fld),
      p.DatabaseRetrievalAlg = some q → env.algReconfigure q s.fFolder = .ok fld →
      p.UseDB.getD false = false → p.UseFile.getD false = false →
      (p.DefaultGain = none ∨ p.DefaultGainErr = none ∨ p.DefaultShapingTime = none ∨
        p.DefaultShapingTimeErr = none) →
      ∃ key ∈ ["DefaultGain", "DefaultGainErr", "DefaultShapingTime",
          "DefaultShapingTimeErr"],
        (Reconfigure env p s).1 = .error (.cantFind key)) ∧
    ((p.UseDB.getD false = true ∨ p.UseFile.getD false = true) →
      ∀ g ge st ste : Option F32,
        Reconfigure env
            { p with DefaultGain := g, DefaultGainErr := ge, DefaultShapingTime := st,
                     DefaultShapingTimeErr := ste } s
          = Reconfigure env p s) := by
  constructor
  · intro q fld hq hf hdb hfile hmiss
    obtain ⟨key, hkey, hdc⟩ := defaultCalib_missing p hmiss
    refine ⟨key, hkey, ?_⟩
    simp [Reconfigure, hq, hf, hdb, hfile, selectDataSource, hdc]
  · intro hmode g ge st ste
    unfold Reconfigure
    cases p.DatabaseRetrievalAlg with
    | none => rfl
    | some q =>
      simp only []
      cases env.algReconfigure q s.fFolder with
      | error e => rfl
      | ok fld =>
        simp only []
        cases hdb : p.UseDB.getD false with
        | true => simp [selectDataSource]
        | false =>
          have hfile : p.UseFile.getD false = true := by
            rcases hmode with h | h
            · rw [hdb] at h; cases h
            · exact h
          simp [selectDataSource, hfile]

/-- Witness of C15: Default mode without any default does not return normally, and the
file is loaded without any default configured. -/
theorem C15_defaults_required_in_default_mode_witness :
    (Reconfigure (testEnv [1, 2] "" []) noDefaultsConfig
        (providerWith quietFolder .File)).1.toBool = false ∧
    (Reconfigure (testEnv [] "calib.txt" ["7,2.2,0.3,1.1,0.2"]) (fileConfig "calib.txt")
        (providerWith quietFolder .File)).1 = .ok () :=
  ⟨match (C15_defaults_required_in_default_mode (testEnv [1, 2] "" []) noDefaultsConfig
      (providerWith quietFolder .File)).1 quietFolder quietFolder rfl rfl rfl rfl
      (Or.inl rfl) with
    | ⟨_, _, h⟩ => by rw [h]; rfl,
    by decide⟩

end Again

/-! ## The snapshot while Update runs -/

section Trace

variable {F32 F64 P Fld : Type}

/-- The last value the loop gives `fData` is the one `updateLoop` returns. -/
theorem getLastD_updateLoopStates [Inhabited F32] (env : Env F32 F64 P Fld) (fld : Fld)
    (chs : List DBChannelID_t) (d : Snapshot F32) :
    (updateLoopStates env fld chs d).getLastD d = (updateLoop env fld chs d).2 := by
  induction chs generalizing d with
  | nil => rfl
  | cons c cs ih =>
    unfold updateLoopStates updateLoop
    cases channelRow env fld c with
    | error e => rfl
    | ok pg =>
      simp only [List.getLastD_cons]
      exact ih _

/-- The last value `fData` takes while `Update` runs is the one `Update` leaves. -/
theorem getLastD_UpdateStates [Inhabited F32] (env : Env F32 F64 P Fld) (ts : DBTimeStamp_t)
    (s : SIOVElectronicsCalibProvider F32 Fld) :
    (UpdateStates env ts s).getLastD s.fData = (Update env ts s).2.fData := by
  by_cases hsrc : s.fDataSource = .Database
  · cases hchg : (env.UpdateFolder s.fFolder ts).1 with
    | false =>
      rw [Update_unchanged env ts s hsrc hchg]
      simp [UpdateStates, hsrc, hchg]
    | true =>
      rw [Update_changed env ts s hsrc hchg]
      simp only [UpdateStates, hsrc, hchg, ne_eq, not_true_eq_false, if_false, Bool.not_true,
        Bool.false_eq_true, List.getLastD_cons]
      exact getLastD_updateLoopStates env _ _ _
  · have h : Update env ts s = (.ok false, s) := by simp [Update, hsrc]
    rw [h]
    simp [UpdateStates, hsrc]

theorem inits_eq_nil_cons {α : Type} (l : List α) : l.inits = [] :: l.inits.tail := by
  cases l <;> simp [List.inits]

/-- The values the loop gives `fData` when every channel has its fields: one per proper
step, each holding the rows of the channels handled so far. -/
theorem updateLoopStates_ok [Inhabited F32] (env : Env F32 F64 P Fld) (fld : Fld)
    (f : DBChannelID_t → ElectronicsCalib F32) (chs : List DBChannelID_t)
    (h : ∀ ch ∈ chs, channelRow env fld ch = .ok (f ch)) (d : Snapshot F32) :
    updateLoopStates env fld chs d
      = chs.inits.tail.map (fun pre => ⟨d.fStart, d.fEnd, insertAll (pre.map f) d.fData⟩) := by
  induction chs generalizing d with
  | nil => rfl
  | cons c cs ih =>
    simp only [updateLoopStates, h c (List.mem_cons_self _ _)]
    rw [ih (fun ch hch => h ch (List.mem_cons_of_mem _ hch))]
    rw [List.inits_cons, List.tail_cons, List.map_map]
    conv_rhs => rw [inits_eq_nil_cons cs]
    simp [Snapshot.AddOrReplaceRow, insertAll_cons, insertAll_nil, Function.comp_def]

/-- C16, as stated, fails: while `Update` rebuilds the snapshot from a folder that holds
rows for channels 3 and 4, `fData` is in turn the old snapshot, the old interval with no
rows, the folder's interval with no rows, the folder's interval with the row of channel 3
alone, and the new snapshot.  The three states in between are neither the complete old
snapshot nor the complete new one. -/
theorem C16_update_is_atomic_counterexample :
    UpdateStates (testEnv [] "" []) 5 (providerWith goodFolder .Database)
      = [⟨⟨10, 0⟩, ⟨20, 0⟩, [⟨9, lit 9 0, lit 9 0, lit 9 0, lit 9 0, ⟨"ElectronicsCalib"⟩⟩]⟩,
         ⟨⟨10, 0⟩, ⟨20, 0⟩, []⟩,
         ⟨⟨1, 0⟩, ⟨2, 0⟩, []⟩,
         ⟨⟨1, 0⟩, ⟨2, 0⟩, [⟨3, lit 1 0, lit 2 0, lit 3 0, lit 4 0, ⟨"ElectronicsCalib"⟩⟩]⟩,
         ⟨⟨1, 0⟩, ⟨2, 0⟩, [⟨3, lit 1 0, lit 2 0, lit 3 0, lit 4 0, ⟨"ElectronicsCalib"⟩⟩,
           ⟨4, lit 5 0, lit 6 0, lit 7 0, lit 8 0, ⟨"ElectronicsCalib"⟩⟩]⟩] ∧
    (providerWith goodFolder .Database).fData
      = ⟨⟨10, 0⟩, ⟨20, 0⟩, [⟨9, lit 9 0, lit 9 0, lit 9 0, lit 9 0, ⟨"ElectronicsCalib"⟩⟩]⟩ ∧
    (Update (testEnv [] "" []) 5 (providerWith goodFolder .Database)).2.fData
      = ⟨⟨1, 0⟩, ⟨2, 0⟩, [⟨3, lit 1 0, lit 2 0, lit 3 0, lit 4 0, ⟨"ElectronicsCalib"⟩⟩,
           ⟨4, lit 5 0, lit 6 0, lit 7 0, lit 8 0, ⟨"ElectronicsCalib"⟩⟩]⟩ := by
  decide

/-- C16, amended: `Update` rebuilds the snapshot in place.  The last value `fData` takes is
the one `Update` leaves.  When the folder reports no change, or outside Database mode,
`fData` is the old snapshot throughout.  When the folder reports a change and every listed
channel has its four fields, `fData` is in turn the old snapshot, the old interval with no
rows, and then the folder's interval with the rows of the channels handled so far, for
none of them, the first, the first two, and so on up to all: the interval of one
generation is never paired with rows of the other, but the states in between hold no rows
or only some of the new rows. -/
theorem C16_update_rebuilds_in_place [Inhabited F32] (env : Env F32 F64 P Fld)
    (ts : DBTimeStamp_t) (s : SIOVElectronicsCalibProvider F32 Fld) :
    (UpdateStates env ts s).getLastD s.fData = (Update env ts s).2.fData ∧
    ((s.fDataSource ≠ .Database ∨ (env.UpdateFolder s.fFolder ts).1 = false) →
      UpdateStates env ts s = [s.fData]) ∧
    (s.fDataSource = .Database → (env.UpdateFolder s.fFolder ts).1 = true →
      (∀ ch ∈ env.GetChannelList (env.UpdateFolder s.fFolder ts).2,
        ∀ name ∈ ["gain", "gain_err", "shaping_time", "shaping_time_err"],
          (env.GetNamedChannelData (env.UpdateFolder s.fFolder ts).2 ch name).isSome = true) →
      UpdateStates env ts s
        = s.fData :: ⟨s.fData.fStart, s.fData.fEnd, []⟩ ::
            (env.GetChannelList (env.UpdateFolder s.fFolder ts).2).inits.map (fun pre =>
              ⟨env.Begin (env.UpdateFolder s.fFolder ts).2,
                env.End (env.UpdateFolder s.fFolder ts).2,
                insertAll (pre.map (rowOrNew env (env.UpdateFolder s.fFolder ts).2)) []⟩)) := by
  refine ⟨getLastD_UpdateStates env ts s, ?_, ?_⟩
  · intro h
    rcases h with h | h
    · simp [UpdateStates, h]
    · simp [UpdateStates, h]
  · intro hsrc hchg hfields
    have hrow : ∀ ch ∈ env.GetChannelList (env.UpdateFolder s.fFolder ts).2,
        channelRow env (env.UpdateFolder s.fFolder ts).2 ch
          = .ok (rowOrNew env (env.UpdateFolder s.fFolder ts).2 ch) := by
      intro ch hch
      obtain ⟨g, hg⟩ := Option.isSome_iff_exists.mp (hfields ch hch "gain" (by simp))
      obtain ⟨ge, hge⟩ := Option.isSome_iff_exists.mp (hfields ch hch "gain_err" (by simp))
      obtain ⟨st, hst⟩ :=
        Option.isSome_iff_exists.mp (hfields ch hch "shaping_time" (by simp))
      obtain ⟨ste, hste⟩ :=
        Option.isSome_iff_exists.mp (hfields ch hch "shaping_time_err" (by simp))
      simp [rowOrNew, channelRow_ok env _ ch g ge st ste hg hge hst hste]
    simp only [UpdateStates, hsrc, hchg, ne_eq, not_true_eq_false, if_false, Bool.not_true,
      Bool.false_eq_true]
    rw [updateLoopStates_ok env _ _ _ hrow]
    conv_rhs => rw [inits_eq_nil_cons]
    simp [Snapshot.Clear, Snapshot.SetIoV, insertAll_nil]

/-- Witness of C16, amended: the refresh from the folder that holds channels 3 and 4. -/
theorem C16_update_rebuilds_in_place_witness :
    UpdateStates (testEnv [] "" []) 5 (providerWith goodFolder .Database)
      = [⟨⟨10, 0⟩, ⟨20, 0⟩, [⟨9, lit 9 0, lit 9 0, lit 9 0, lit 9 0, ⟨"ElectronicsCalib"⟩⟩]⟩,
         ⟨⟨10, 0⟩, ⟨20, 0⟩, []⟩,
         ⟨⟨1, 0⟩, ⟨2, 0⟩, []⟩,
         ⟨⟨1, 0⟩, ⟨2, 0⟩, [⟨3, lit 1 0, lit 2 0, lit 3 0, lit 4 0, ⟨"ElectronicsCalib"⟩⟩]⟩,
         ⟨⟨1, 0⟩, ⟨2, 0⟩, [⟨3, lit 1 0, lit 2 0, lit 3 0, lit 4 0, ⟨"ElectronicsCalib"⟩⟩,
           ⟨4, lit 5 0, lit 6 0, lit 7 0, lit 8 0, ⟨"ElectronicsCalib"⟩⟩]⟩] :=
  ((C16_update_rebuilds_in_place (testEnv [] "" []) 5
    (providerWith goodFolder .Database)).2.2 rfl rfl (by decide)).trans (by decide)

end Trace

end lariov
